import Mathlib

/-!
Verification of the admission/validation engine of the aerospike-kubernetes-operator
AerospikeCluster webhook (Go source: api/v1 cluster validating webhook).

The Go code is shallowly embedded: the untyped configuration tree
(`map[string]interface{}`) becomes the inductive `CVal`, Go errors become the
`err` constructor of the `Res` monad, and failing one-value type assertions
(runtime panics in Go) become the `panics` constructor.  Functions keep the
source names where Lean allows it.
-/

set_option maxRecDepth 10000

namespace AeroSpec

/-- Outcome of a Go function in the embedding: a normal value, a returned
`error`, or a runtime panic (failed one-value type assertion / nil deref). -/
inductive Res (α : Type) where
  | ok : α → Res α
  | err : String → Res α
  | panics : String → Res α
deriving Repr, DecidableEq

def Res.bind {α β : Type} : Res α → (α → Res β) → Res β
  | .ok a, f => f a
  | .err e, _ => .err e
  | .panics p, _ => .panics p

instance : Monad Res where
  pure := Res.ok
  bind := Res.bind

@[simp] theorem Res.bind_ok {α β : Type} (a : α) (f : α → Res β) :
    Res.bind (Res.ok a) f = f a := rfl

@[simp] theorem Res.bind_err {α β : Type} (e : String) (f : α → Res β) :
    Res.bind (Res.err e) f = Res.err e := rfl

@[simp] theorem Res.bind_panics {α β : Type} (e : String) (f : α → Res β) :
    Res.bind (Res.panics e) f = Res.panics e := rfl

@[simp] theorem Res.monadBind_eq {α β : Type} (x : Res α) (f : α → Res β) :
    x >>= f = Res.bind x f := rfl

@[simp] theorem Res.pure_eq {α : Type} (a : α) : (pure a : Res α) = Res.ok a := rfl

/-- A value of the loosely-typed Go configuration tree
(`interface{}` holding strings, ints, bools, `[]interface{}` or
`map[string]interface{}`).  Maps are association lists; the first binding of a
key wins, matching Go map semantics for well-formed (duplicate-free) trees. -/
inductive CVal where
  | s : String → CVal
  | i : Int → CVal
  | b : Bool → CVal
  | lst : List CVal → CVal
  | m : List (String × CVal) → CVal
deriving Repr, Inhabited

mutual

def decEqCVal : (a b : CVal) → Decidable (a = b)
  | .s x, .s y =>
    match String.decEq x y with
    | isTrue h => isTrue (by rw [h])
    | isFalse h => isFalse (by simpa using h)
  | .i x, .i y =>
    match Int.decEq x y with
    | isTrue h => isTrue (by rw [h])
    | isFalse h => isFalse (by simpa using h)
  | .b x, .b y =>
    match Bool.decEq x y with
    | isTrue h => isTrue (by rw [h])
    | isFalse h => isFalse (by simpa using h)
  | .lst x, .lst y =>
    match decEqCValList x y with
    | isTrue h => isTrue (by rw [h])
    | isFalse h => isFalse (by simpa using h)
  | .m x, .m y =>
    match decEqCValKVList x y with
    | isTrue h => isTrue (by rw [h])
    | isFalse h => isFalse (by simpa using h)
  | .s _, .i _ => isFalse (by simp)
  | .s _, .b _ => isFalse (by simp)
  | .s _, .lst _ => isFalse (by simp)
  | .s _, .m _ => isFalse (by simp)
  | .i _, .s _ => isFalse (by simp)
  | .i _, .b _ => isFalse (by simp)
  | .i _, .lst _ => isFalse (by simp)
  | .i _, .m _ => isFalse (by simp)
  | .b _, .s _ => isFalse (by simp)
  | .b _, .i _ => isFalse (by simp)
  | .b _, .lst _ => isFalse (by simp)
  | .b _, .m _ => isFalse (by simp)
  | .lst _, .s _ => isFalse (by simp)
  | .lst _, .i _ => isFalse (by simp)
  | .lst _, .b _ => isFalse (by simp)
  | .lst _, .m _ => isFalse (by simp)
  | .m _, .s _ => isFalse (by simp)
  | .m _, .i _ => isFalse (by simp)
  | .m _, .b _ => isFalse (by simp)
  | .m _, .lst _ => isFalse (by simp)

def decEqCValList : (a b : List CVal) → Decidable (a = b)
  | [], [] => isTrue rfl
  | [], _ :: _ => isFalse (by simp)
  | _ :: _, [] => isFalse (by simp)
  | x :: xs, y :: ys =>
    match decEqCVal x y with
    | isFalse h => isFalse (by simp_all)
    | isTrue h1 =>
      match decEqCValList xs ys with
      | isTrue h2 => isTrue (by rw [h1, h2])
      | isFalse h => isFalse (by simp_all)

def decEqCValKVList : (a b : List (String × CVal)) → Decidable (a = b)
  | [], [] => isTrue rfl
  | [], _ :: _ => isFalse (by simp)
  | _ :: _, [] => isFalse (by simp)
  | (k1, v1) :: xs, (k2, v2) :: ys =>
    match String.decEq k1 k2 with
    | isFalse h => isFalse (by simp_all)
    | isTrue hk =>
      match decEqCVal v1 v2 with
      | isFalse h => isFalse (by simp_all)
      | isTrue hv =>
        match decEqCValKVList xs ys with
        | isTrue ht => isTrue (by rw [hk, hv, ht])
        | isFalse h => isFalse (by simp_all)

end

instance : DecidableEq CVal := decEqCVal

/-- The top level of an aerospikeConfig tree (`AerospikeConfigSpec.Value`). -/
abbrev ConfMap := List (String × CVal)

/-- Go map indexing `conf[key]`: the value and whether the key is present. -/
def mapGet (conf : ConfMap) (key : String) : Option CVal :=
  (conf.find? (fun kv => kv.1 = key)).map (fun kv => kv.2)

/-- Go one-value type assertion `v.(map[string]interface{})` (panics on failure,
including on a nil interface). -/
def asMap : Option CVal → Res ConfMap
  | some (.m conf) => .ok conf
  | _ => .panics "interface conversion: not map[string]interface{}"

/-- Go one-value type assertion `v.([]interface{})`. -/
def asList : Option CVal → Res (List CVal)
  | some (.lst l) => .ok l
  | _ => .panics "interface conversion: not []interface{}"

/-- Go one-value type assertion `v.(string)`. -/
def asString : Option CVal → Res String
  | some (.s st) => .ok st
  | _ => .panics "interface conversion: not string"

/-- Go one-value type assertion `v.(bool)`. -/
def asBool : Option CVal → Res Bool
  | some (.b bv) => .ok bv
  | _ => .panics "interface conversion: not bool"

mutual

/-- Rendering used for `%v` of a `CVal` in error messages. -/
def CVal.render : CVal → String
  | .s st => st
  | .i n => toString n
  | .b bv => toString bv
  | .lst l => "[" ++ renderCList l ++ "]"
  | .m conf => "map[" ++ renderCMap conf ++ "]"

def renderCList : List CVal → String
  | [] => ""
  | [v] => v.render
  | v :: rest => v.render ++ " " ++ renderCList rest

def renderCMap : List (String × CVal) → String
  | [] => ""
  | [(k, v)] => k ++ ":" ++ v.render
  | (k, v) :: rest => k ++ ":" ++ v.render ++ " " ++ renderCMap rest

end

/-! ## `intstr.IntOrString` (k8s apimachinery, external library; modelled from its
documented behaviour: an absolute count or a percentage string). -/

inductive IntOrString where
  | int : Int → IntOrString
  | str : String → IntOrString
deriving Repr, DecidableEq

def IntOrString.render : IntOrString → String
  | .int n => toString n
  | .str st => st

/-- Go `strconv.Atoi`. -/
def atoi (st : String) : Option Int := st.toInt?

/-- Go `(*IntOrString).IntValue()`: for a string it runs `strconv.Atoi` and
yields 0 on a parse failure (so `"30%"` resolves to 0). -/
def IntOrString.intValue : IntOrString → Int
  | .int n => n
  | .str st => (atoi st).getD 0

/-- Modelled from the spec: `intstr.GetScaledValueFromIntOrPercent` of the
k8s library with `roundUp=false`.  The source only calls it with `total = 100`,
where `p * total / 100 = p` exactly, so the float rounding in the library is
irrelevant. -/
def getScaledValueFromIntOrPercent (value : Option IntOrString) (total : Int) : Res Int :=
  match value with
  | none => .err "nil value for IntOrString"
  | some (.int n) => .ok n
  | some (.str st) =>
    if st.endsWith "%" then
      match atoi (st.dropRight 1) with
      | some p => .ok (p * total / 100)
      | none => .err ("invalid value " ++ st)
    else .err "invalid type: string is not a percentage"

def isStringType : Option IntOrString → Bool
  | some (.str _) => true
  | _ => false

def renderIntOrStringPtr : Option IntOrString → String
  | none => "<nil>"
  | some v => v.render

/-! ## Storage model.  The storage spec type and its helpers live in a file of
this repository that is not part of the given sources; they are modelled from
the spec (§3 StorageSpec/Volume, §2 PathResolver). -/

inductive VolumeMode where
  | block
  | filesystem
deriving Repr, DecidableEq

inductive VolumeSource where
  | persistentVolume (storageClass : String)
  | secret (secretName : String)
  | emptyDir
deriving Repr, DecidableEq

/-- Modelled from the spec: a declared storage volume — name, Block|Filesystem
mode, source, optional attachment path inside the server container, and the
sole mutable attribute, the cascade-delete policy. -/
structure Volume where
  name : String
  mode : VolumeMode
  source : VolumeSource
  aerospikePath : Option String
  cascadeDelete : Bool
deriving Repr, DecidableEq

structure AerospikeStorageSpec where
  volumes : List Volume
deriving Repr, DecidableEq

def Volume.isPV (v : Volume) : Bool :=
  match v.source with
  | .persistentVolume _ => true
  | _ => false

/-- Modelled from the spec: `storage.getAerospikeStorageList(onlyPV)` — the
device paths of declared Block volumes and the mount paths of declared
Filesystem volumes (restricted to persistent volumes when `onlyPV`). -/
def getAerospikeStorageList (storage : AerospikeStorageSpec) (onlyPV : Bool) :
    List String × List String :=
  let eligible := storage.volumes.filter (fun v => !onlyPV || v.isPV)
  (eligible.filterMap (fun v => if v.mode = .block then v.aerospikePath else none),
   eligible.filterMap (fun v => if v.mode = .filesystem then v.aerospikePath else none))

/-- Rendering used for `%v` of a storage spec in error messages. -/
def AerospikeStorageSpec.render (storage : AerospikeStorageSpec) : String :=
  "\x7b[" ++ String.intercalate " " (storage.volumes.map (fun v => v.name)) ++ "]\x7d"

/-- Modelled from the spec: `validateStorageSpecChange` — volume `source` and
`mode` are immutable after first acceptance; the cascade-delete policy is the
sole mutable storage attribute. -/
def validateStorageSpecChange (old new : AerospikeStorageSpec) : Res Unit :=
  if new.volumes.all (fun nv =>
      match old.volumes.find? (fun ov => ov.name = nv.name) with
      | some ov => ov.source = nv.source && ov.mode = nv.mode
      | none => true) then
    .ok ()
  else .err "volume source or mode cannot be updated"

/-! ## Cluster descriptor data model (api/v1 types, fields used by the
validation functions under study). -/

inductive AerospikeNetworkType where
  | unspecified
  | pod
  | hostInternal
  | hostExternal
  | configuredIP
  | customInterface
deriving Repr, DecidableEq

structure AerospikeNetworkPolicy where
  fabricType : AerospikeNetworkType
  tlsFabricType : AerospikeNetworkType
  customFabricNetworkNames : List String
  customTLSFabricNetworkNames : List String
deriving Repr, DecidableEq

structure Rack where
  id : Int
  nodeName : String
  rackLabel : String
  region : String
  zone : String
  storage : AerospikeStorageSpec
  aerospikeConfig : ConfMap
deriving Repr, DecidableEq

structure RackConfig where
  racks : List Rack
  namespaces : List String
  rollingUpdateBatchSize : Option IntOrString
  scaleDownBatchSize : Option IntOrString
deriving Repr, DecidableEq

structure AerospikeClusterSpec where
  size : Nat
  image : String
  multiPodPerHost : Option Bool
  disablePDB : Option Bool
  maxUnavailable : Option IntOrString
  storage : AerospikeStorageSpec
  rackConfig : RackConfig
  aerospikeConfig : ConfMap
  networkPolicy : AerospikeNetworkPolicy
deriving Repr, DecidableEq

structure AerospikeClusterStatus where
  aerospikeConfig : Option ConfMap
  rackConfig : RackConfig
deriving Repr, DecidableEq

structure AerospikeCluster where
  spec : AerospikeClusterSpec
  status : AerospikeClusterStatus
deriving Repr, DecidableEq

/-! ## Small helpers from the api/v1 utils (those missing from the given
sources are modelled and flagged as such). -/

/-- Modelled from the spec: `GetBool` dereferences an optional bool pointer
with `false` for nil. -/
def GetBool : Option Bool → Bool
  | none => false
  | some bv => bv

/-- Modelled from the spec: `GetIntType` converts a dynamically-typed config
value to an int, failing (with an error, not a panic) on non-numeric types. -/
def GetIntType : CVal → Res Int
  | .i n => .ok n
  | v => .err ("value " ++ v.render ++ " not a valid int")

/-- Splitting a character list around whitespace runs (kernel-reducible
implementation detail behind `stringsFields`). -/
def fieldsCore : List Char → List Char → List String
  | [], acc => if acc.isEmpty then [] else [String.mk acc.reverse]
  | c :: rest, acc =>
    if c.isWhitespace then
      if acc.isEmpty then fieldsCore rest []
      else String.mk acc.reverse :: fieldsCore rest []
    else fieldsCore rest (c :: acc)

/-- Go `strings.Fields`: split around runs of whitespace. -/
def stringsFields (st : String) : List String :=
  fieldsCore st.data []

/-- Go `strings.TrimSpace`. -/
def stringsTrim (st : String) : String :=
  String.mk (((st.data.dropWhile Char.isWhitespace).reverse.dropWhile
    Char.isWhitespace).reverse)

/-- Go `strings.HasPrefix`. -/
def strIsPre (p s : String) : Bool :=
  p.data.isPrefixOf s.data

def ContainsString (l : List String) (st : String) : Bool :=
  l.contains st

def isNameExist (l : List String) (st : String) : Bool :=
  ContainsString l st

/-- `IsNSSCEnabled` (source part_001): absent `strong-consistency` means
disabled; a present value is type-asserted to bool. -/
def IsNSSCEnabled (nsConf : ConfMap) : Res Bool :=
  match mapGet nsConf "strong-consistency" with
  | none => .ok false
  | some v => asBool (some v)

/-- `isInMemoryNamespace` (source part_001). -/
def isInMemoryNamespace (namespaceConf : ConfMap) : Res Bool :=
  match mapGet namespaceConf "storage-engine" with
  | none => .ok false
  | some stv => do
    let storageConf ← asMap (some stv)
    pure (mapGet storageConf "type" = some (.s "memory"))

/-- `isDeviceOrPmemNamespace` (source part_001). -/
def isDeviceOrPmemNamespace (namespaceConf : ConfMap) : Res Bool :=
  match mapGet namespaceConf "storage-engine" with
  | none => .ok false
  | some stv => do
    let storageConf ← asMap (some stv)
    pure (mapGet storageConf "type" = some (.s "device") ||
          mapGet storageConf "type" = some (.s "pmem"))

/-- `isShMemIndexTypeNamespace` (source part_001): a missing `index-type` is
assumed to be shmem. -/
def isShMemIndexTypeNamespace (namespaceConf : ConfMap) : Res Bool :=
  match mapGet namespaceConf "index-type" with
  | none => .ok true
  | some stv => do
    let storageConf ← asMap (some stv)
    pure (mapGet storageConf "type" = some (.s "shmem"))

/-- `getNamespaceReplicationFactor` (source part_001): default 2 when the key
is absent. -/
def getNamespaceReplicationFactor (nsConf : ConfMap) : Res Int :=
  match mapGet nsConf "replication-factor" with
  | none => .ok 2
  | some v =>
    match GetIntType v with
    | .ok n => .ok n
    | .err e => .err ("namespace replication-factor " ++ e)
    | .panics e => .panics e

/-- Modelled from the spec: helper `isValueUpdated` — a key counts as updated
when its presence changes or its value changes between the two maps. -/
def isValueUpdated (m1 m2 : ConfMap) (key : String) : Bool :=
  mapGet m1 key ≠ mapGet m2 key

/-- Modelled from the spec: `IsSecurityEnabled` — reports whether the
configuration tree carries an (enabled) security stanza; an empty tree is an
error. -/
def IsSecurityEnabled (conf : ConfMap) : Res Bool :=
  if conf.isEmpty then .err "missing aerospike configuration"
  else .ok (mapGet conf "security").isSome

/-! ## `validateSCNamespaces` (source part_001, lines 319-351). -/

/-- The body of the per-rack loop of `validateSCNamespaces`: walk the rack's
namespace list, collecting the names of strong-consistency-enabled namespaces
and rejecting in-memory SC namespaces on the way. -/
def collectSCNamespaces : List CVal → Finset String → Res (Finset String)
  | [], acc => .ok acc
  | nsI :: rest, acc => do
    let nsConf ← asMap (some nsI)
    let isEnabled ← IsNSSCEnabled nsConf
    if isEnabled then do
      let name ← asString (mapGet nsConf "name")
      let inMem ← isInMemoryNamespace nsConf
      if inMem then
        .err ("in-memory SC namespace is not supported, namespace " ++ name)
      else
        collectSCNamespaces rest (insert name acc)
    else
      collectSCNamespaces rest acc

/-- The strong-consistency namespace name set a rack contributes in
`validateSCNamespaces` (`tmpSCNamespaceSet` of the source). -/
def rackSCSet (rack : Rack) : Res (Finset String) := do
  let nsList ← asList (mapGet rack.aerospikeConfig "namespaces")
  collectSCNamespaces nsList ∅

/-- The tail of the rack loop of `validateSCNamespaces`: every further rack's
SC set must equal the first rack's set. -/
def checkSCRacks (base : Finset String) : List Rack → Res Unit
  | [] => .ok ()
  | rack :: rest => do
    let tmp ← rackSCSet rack
    if tmp = base then checkSCRacks base rest
    else .err "SC namespaces list is different for different racks. All racks should have same SC namespaces"

/-- The rack loop of `validateSCNamespaces`: the first rack's SC set is the
baseline, every other rack must produce an equal set. -/
def validateSCRackList : List Rack → Res Unit
  | [] => .ok ()
  | rack0 :: rest => do
    let base ← rackSCSet rack0
    checkSCRacks base rest

/-- `validateSCNamespaces` (source part_001). -/
def validateSCNamespaces (c : AerospikeCluster) : Res Unit :=
  validateSCRackList c.spec.rackConfig.racks

/-! ## `validateIntOrStringField` (source part_001, lines 2226-2244). -/

def validateIntOrStringField (value : Option IntOrString) (fieldPath : String) : Res Unit := do
  let count ← getScaledValueFromIntOrPercent value 100
  if count < 0 then
    .err ("can not use negative " ++ fieldPath ++ ": " ++ renderIntOrStringPtr value)
  else if isStringType value && count > 100 then
    .err (fieldPath ++ ": " ++ renderIntOrStringPtr value ++ " must not be greater than 100 percent")
  else .ok ()

/-! ## `getNsConfForNamespaces` (source part_001, lines 676-706) and
`validateBatchSize` (lines 2155-2224). -/

structure NsConf where
  noOfRacksForNamespaces : Int
  replicationFactor : Int
  scEnabled : Bool
deriving Repr, DecidableEq

/-- Go map insertion: replace the binding if the key exists, else append. -/
def upsert {α : Type} : List (String × α) → String → α → List (String × α)
  | [], k, v => [(k, v)]
  | (k1, v1) :: rest, k, v =>
    if k1 = k then (k, v) :: rest else (k1, v1) :: upsert rest k v

/-- Go map lookup on an association list built with `upsert`. -/
def lookupA {α : Type} : List (String × α) → String → Option α
  | [], _ => none
  | (k1, v1) :: rest, k => if k1 = k then some v1 else lookupA rest k

/-- Inner loop of `getNsConfForNamespaces` over one rack's namespace list. -/
def nsConfFoldNsList : List CVal → List (String × NsConf) → Res (List (String × NsConf))
  | [], acc => .ok acc
  | nsI :: rest, acc => do
    let nsMap ← asMap (some nsI)
    let nsName ← asString (mapGet nsMap "name")
    let noOfRacks : Int :=
      match lookupA acc nsName with
      | none => 1
      | some prev => prev.noOfRacksForNamespaces + 1
    let rf : Int :=
      match getNamespaceReplicationFactor nsMap with
      | .ok v => v
      | .err _ => 0
      | .panics _ => 0
    let scEnabled ← IsNSSCEnabled nsMap
    nsConfFoldNsList rest (upsert acc nsName ⟨noOfRacks, rf, scEnabled⟩)

/-- Outer loop of `getNsConfForNamespaces` over the racks. -/
def nsConfFoldRacks : List Rack → List (String × NsConf) → Res (List (String × NsConf))
  | [], acc => .ok acc
  | rack :: rest, acc => do
    let nsList ← asList (mapGet rack.aerospikeConfig "namespaces")
    let acc2 ← nsConfFoldNsList nsList acc
    nsConfFoldRacks rest acc2

/-- `getNsConfForNamespaces` (source part_001): per-namespace rack count,
replication factor (parse errors ignored, yielding the Go zero value 0) and
SC flag, the last rack listing the namespace winning. -/
def getNsConfForNamespaces (rackConfig : RackConfig) : Res (List (String × NsConf)) :=
  nsConfFoldRacks rackConfig.racks []

/-- The per-namespace conditions of `validateRacksForBatchSize`. -/
def checkNsConfsForBatchSize (fieldPath : String) (namespaces : List String)
    (rollingUpdateBatch : Bool) : List (String × NsConf) → Res Unit
  | [] => .ok ()
  | (ns, nc) :: rest =>
    if !isNameExist namespaces ns then
      .err ("can not use " ++ fieldPath ++ " when there is any non-rack enabled namespace " ++ ns)
    else if nc.noOfRacksForNamespaces ≤ 1 then
      .err ("can not use " ++ fieldPath ++ " when namespace `" ++ ns ++ "` is configured in only one rack")
    else if nc.replicationFactor ≤ 1 then
      .err ("can not use " ++ fieldPath ++ " when namespace `" ++ ns ++
        "` is configured with replication-factor 1")
    else if !rollingUpdateBatch && nc.scEnabled then
      .err ("can not use " ++ fieldPath ++ " when namespace `" ++ ns ++
        "` is configured with Strong Consistency")
    else checkNsConfsForBatchSize fieldPath namespaces rollingUpdateBatch rest

/-- `validateRacksForBatchSize` (the closure inside `validateBatchSize`). -/
def validateRacksForBatchSize (fieldPath : String) (rollingUpdateBatch : Bool)
    (rackConfig : RackConfig) : Res Unit :=
  if rackConfig.racks.length < 2 then
    .err ("can not use " ++ fieldPath ++ " when number of racks is less than two")
  else do
    let nsConfs ← getNsConfForNamespaces rackConfig
    checkNsConfsForBatchSize fieldPath rackConfig.namespaces rollingUpdateBatch nsConfs

/-- `validateBatchSize` (source part_001): checks the field shape, then the
rack topology of the incoming spec, then — when a status exists — the rack
topology recorded in the status. -/
def validateBatchSize (c : AerospikeCluster) (batchSize : Option IntOrString)
    (rollingUpdateBatch : Bool) : Res Unit :=
  match batchSize with
  | none => .ok ()
  | some bs => do
    let fieldPath :=
      if rollingUpdateBatch then "spec.rackConfig.rollingUpdateBatchSize"
      else "spec.rackConfig.scaleDownBatchSize"
    validateIntOrStringField (some bs) fieldPath
    validateRacksForBatchSize fieldPath rollingUpdateBatch c.spec.rackConfig
    match c.status.aerospikeConfig with
    | none => .ok ()
    | some _ =>
      match validateRacksForBatchSize fieldPath rollingUpdateBatch c.status.rackConfig with
      | .ok _ => .ok ()
      | .err e => .err ("status invalid for " ++ fieldPath ++ ": update, " ++ e)
      | .panics p => .panics p

/-! ## `validateMaxUnavailable` (source part_001, lines 2246-2303). -/

/-- The namespace loop of `validateMaxUnavailable`: an absent
replication-factor resets the bound to the default 2, factor 1 is skipped, a
smaller factor lowers the bound. -/
def muNsLoop : List CVal → Int → Res Int
  | [], bound => .ok bound
  | nsI :: rest, bound => do
    let nsMap ← asMap (some nsI)
    match mapGet nsMap "replication-factor" with
    | none => muNsLoop rest 2
    | some rfI =>
      match GetIntType rfI with
      | .err e => .err ("namespace replication-factor " ++ e)
      | .panics p => .panics p
      | .ok rf =>
        if rf = 1 then muNsLoop rest bound
        else if rf < bound then muNsLoop rest rf
        else muNsLoop rest bound

/-- The rack loop of `validateMaxUnavailable`. -/
def muRackLoop : List Rack → Int → Res Int
  | [], bound => .ok bound
  | rack :: rest, bound => do
    let nsList ← asList (mapGet rack.aerospikeConfig "namespaces")
    let bound2 ← muNsLoop nsList bound
    muRackLoop rest bound2

/-- The warning emitted when `spec.disablePDB` is set. -/
def pdbDisabledWarning : String :=
  "Spec field 'spec.maxUnavailable' will be omitted from Custom Resource (CR) because 'spec.disablePDB' is true."

/-- The rejection message of `validateMaxUnavailable`, carrying the computed
safe bound. -/
def maxUnavailableErrMsg (mu : IntOrString) (safe : Int) : String :=
  "maxUnavailable " ++ mu.render ++ " cannot be greater than or equal to " ++ toString safe ++
    " as it may result in data loss. Set it to a lower value"

/-- `validateMaxUnavailable` (source part_001): returns the webhook warnings
and the validation outcome. -/
def validateMaxUnavailable (c : AerospikeCluster) : List String × Res Unit :=
  if GetBool c.spec.disablePDB then
    ([pdbDisabledWarning], .ok ())
  else
    ([], do
      validateIntOrStringField c.spec.maxUnavailable "spec.maxUnavailable"
      let safe0 : Int := c.spec.size
      if safe0 = 1 then .ok ()
      else do
        let safe ← muRackLoop c.spec.rackConfig.racks safe0
        match c.spec.maxUnavailable with
        | none => .panics "invalid memory address or nil pointer dereference"
        | some mu =>
          if mu.intValue ≥ safe then .err (maxUnavailableErrMsg mu safe)
          else .ok ())

/-! ## Update validation: security (source part_001, lines 1312-1352). -/

def networkConnectionTypes : List String := ["service", "heartbeat", "fabric"]

/-- The `%w`-wrapping of an `IsSecurityEnabled` failure inside
`validateSecurityContext`. -/
def wrapSecError (prefx : String) : Res Bool → Res Bool
  | .ok v => .ok v
  | .err e => .err (prefx ++ e)
  | .panics p => .panics p

def validateSecurityContext (newSpec oldSpec : ConfMap) : Res Unit := do
  let ovflag ← wrapSecError "failed to validate Security context of old aerospike conf: "
    (IsSecurityEnabled oldSpec)
  let ivflag ← wrapSecError "failed to validate Security context of new aerospike conf: "
    (IsSecurityEnabled newSpec)
  if !ivflag && ovflag then .err "cannot disable cluster security in running cluster"
  else .ok ()

def validateSecurityConfigUpdate (newSpec oldSpec : ConfMap) (currentStatus : Option ConfMap) :
    Res Unit := do
  (match currentStatus with
   | some st => do
     let currentSecurityEnabled ← IsSecurityEnabled st
     let desiredSecurityEnabled ← IsSecurityEnabled newSpec
     if currentSecurityEnabled && !desiredSecurityEnabled then
       Res.err "cannot disable cluster security in running cluster"
     else Res.ok ()
   | none => Res.ok ())
  validateSecurityContext newSpec oldSpec

/-! ## Update validation: TLS (source part_001, lines 1382-1454). -/

/-- The loop collecting the `tls-name`s used by the connection types of a
network section (used twice in `validateTLSUpdate`). -/
def usedTLSNamesLoop (netMap : ConfMap) : List String → List String → Res (List String)
  | [], acc => .ok acc
  | t :: rest, acc =>
    match mapGet netMap t with
    | none => usedTLSNamesLoop netMap rest acc
    | some connI => do
      let connMap ← asMap (some connI)
      match mapGet connMap "tls-name" with
      | none => usedTLSNamesLoop netMap rest acc
      | some tn => do
        let tnStr ← asString (some tn)
        usedTLSNamesLoop netMap rest (acc ++ [tnStr])

/-- One `ca-file`/`ca-path` map update inside `validateTLSUpdate`: the present
value is string-asserted and recorded under the entry name. -/
def caMapInsert (name : String) (capMap : List (String × String)) :
    Option CVal → Res (List (String × String))
  | none => pure capMap
  | some cf => do
    let cfs ← asString (some cf)
    pure (upsert capMap name cfs)

/-- The loop of `validateTLSUpdate` building, for the used old TLS entries,
the name → `ca-file` and name → `ca-path` maps. -/
def oldCAMapsLoop (used : List String) :
    List CVal → List (String × String) × List (String × String) →
    Res (List (String × String) × List (String × String))
  | [], maps => .ok maps
  | tlsI :: rest, (fileMap, pathMap) => do
    let tlsMap ← asMap (some tlsI)
    let name ← asString (mapGet tlsMap "name")
    if !used.contains name then
      oldCAMapsLoop used rest (fileMap, pathMap)
    else do
      let fm2 ← caMapInsert name fileMap (mapGet tlsMap "ca-file")
      let pm2 ← caMapInsert name pathMap (mapGet tlsMap "ca-path")
      oldCAMapsLoop used rest (fm2, pm2)

/-- The loop of `validateTLSUpdate` over the new TLS entries: used CA material
cannot be removed entirely nor have its `ca-file` changed. -/
def newTLSCheckLoop (used : List String) (oldFileMap oldPathMap : List (String × String)) :
    List CVal → Res Unit
  | [] => .ok ()
  | tlsI :: rest => do
    let tlsMap ← asMap (some tlsI)
    let name ← asString (mapGet tlsMap "name")
    if !used.contains name then
      newTLSCheckLoop used oldFileMap oldPathMap rest
    else
      let newCAPathOK := (mapGet tlsMap "ca-path").isSome
      let newCAFileO := mapGet tlsMap "ca-file"
      let oldCAFileO := lookupA oldFileMap name
      let oldCAPathOK := (lookupA oldPathMap name).isSome
      if (oldCAFileO.isSome || oldCAPathOK) && !(newCAPathOK || newCAFileO.isSome) then
        .err "cannot remove used `ca-file` or `ca-path` from tls"
      else
        match oldCAFileO, newCAFileO with
        | some ocf, some ncf => do
          let ncfs ← asString (some ncf)
          if ncfs ≠ ocf then .err "cannot change ca-file of used tls"
          else newTLSCheckLoop used oldFileMap oldPathMap rest
        | _, _ => newTLSCheckLoop used oldFileMap oldPathMap rest

def validateTLSUpdate (oldConf newConf : ConfMap) : Res Unit := do
  let oldNet ← asMap (mapGet oldConf "network")
  let newNet ← asMap (mapGet newConf "network")
  match mapGet oldNet "tls", mapGet newNet "tls" with
  | some oldTLS, some newTLS =>
    if oldTLS ≠ newTLS then do
      let newUsed ← usedTLSNamesLoop newNet networkConnectionTypes []
      let oldUsed ← usedTLSNamesLoop oldNet networkConnectionTypes []
      let oldTLSList ← asList (some oldTLS)
      let maps ← oldCAMapsLoop oldUsed oldTLSList ([], [])
      let newTLSList ← asList (some newTLS)
      newTLSCheckLoop newUsed maps.1 maps.2 newTLSList
    else .ok ()
  | _, _ => .ok ()

/-! ## Update validation: network connections (source part_001, lines
1456-1513). -/

def networkPortsList : List String := ["port", "access-port", "alternate-access-port"]

def validateNetworkPortUpdate (oldConnectionConfig newConnectionConfig : ConfMap)
    (port : String) : Res Unit := do
  let tlsPort := "tls-" ++ port
  let oldPortO := mapGet oldConnectionConfig port
  let newPortO := mapGet newConnectionConfig port
  (match oldPortO, newPortO with
   | some op, some np =>
     if op ≠ np then
       Res.err ("cannot modify " ++ port ++ " number: old value " ++ op.render ++
         ", new value " ++ np.render)
     else Res.ok ()
   | _, _ => Res.ok ())
  let oldTLSPortO := mapGet oldConnectionConfig tlsPort
  let newTLSPortO := mapGet newConnectionConfig tlsPort
  (match oldTLSPortO, newTLSPortO with
   | some op, some np =>
     if op ≠ np then
       Res.err ("cannot modify " ++ tlsPort ++ " number: old value " ++ op.render ++
         ", new value " ++ np.render)
     else Res.ok ()
   | _, _ => Res.ok ())
  if (!newTLSPortO.isSome && oldTLSPortO.isSome) || (!newPortO.isSome && oldPortO.isSome) then
    if !(oldPortO.isSome && oldTLSPortO.isSome) then
      .err "cannot remove tls or non-tls configurations unless both configurations have been set initially"
    else .ok ()
  else .ok ()

def portUpdateLoop (oldConnectionConfig newConnectionConfig : ConfMap) :
    List String → Res Unit
  | [] => .ok ()
  | p :: rest => do
    validateNetworkPortUpdate oldConnectionConfig newConnectionConfig p
    portUpdateLoop oldConnectionConfig newConnectionConfig rest

def validateNetworkConnectionUpdate (newConf oldConf : ConfMap) (connectionType : String) :
    Res Unit := do
  let oldNet ← asMap (mapGet oldConf "network")
  let oldConnectionConfig ← asMap (mapGet oldNet connectionType)
  let newNet ← asMap (mapGet newConf "network")
  let newConnectionConfig ← asMap (mapGet newNet connectionType)
  (match mapGet oldConnectionConfig "tls-name", mapGet newConnectionConfig "tls-name" with
   | some oldTLSName, some newTLSName =>
     if oldTLSName ≠ newTLSName then Res.err "cannot modify tls name" else Res.ok ()
   | _, _ => Res.ok ())
  portUpdateLoop oldConnectionConfig newConnectionConfig networkPortsList

/-! ## Update validation: namespaces (source part_001, lines 1537-1688). -/

/-- Device collision loop of `validateStorageEngineDeviceList`. -/
def sedlDevices (nsName : String) : List CVal → List (String × String) →
    Res (List (String × String))
  | [], dl => .ok dl
  | dI :: rest, dl => do
    let device ← asString (some dI)
    match lookupA dl device with
    | some previousNamespace =>
      .err ("device " ++ device ++ " is already being referenced in multiple namespaces (" ++
        previousNamespace ++ ", " ++ nsName ++ ")")
    | none => sedlDevices nsName rest (upsert dl device nsName)

/-- File collision loop of `validateStorageEngineDeviceList`. -/
def sedlFiles (nsName : String) : List CVal → List (String × String) →
    Res (List (String × String))
  | [], fl => .ok fl
  | fI :: rest, fl => do
    let file ← asString (some fI)
    match lookupA fl file with
    | some previousNamespace =>
      .err ("file " ++ file ++ " is already being referenced in multiple namespaces (" ++
        previousNamespace ++ ", " ++ nsName ++ ")")
    | none => sedlFiles nsName rest (upsert fl file nsName)

/-- The `devices` branch of the device-collision scan. -/
def sedlDevBranch (nsName : String) (dl : List (String × String)) :
    Option CVal → Res (List (String × String))
  | none => pure dl
  | some devs => do
    let devList ← asList (some devs)
    sedlDevices nsName devList dl

/-- The `files` branch of the file-collision scan. -/
def sedlFileBranch (nsName : String) (fl : List (String × String)) :
    Option CVal → Res (List (String × String))
  | none => pure fl
  | some fs => do
    let fList ← asList (some fs)
    sedlFiles nsName fList fl

/-- Namespace loop of `validateStorageEngineDeviceList`, building the
device → namespace and file → namespace maps. -/
def sedlLoop : List CVal → List (String × String) × List (String × String) →
    Res (List (String × String) × List (String × String))
  | [], maps => .ok maps
  | nsI :: rest, (dl, fl) => do
    let nsConf ← asMap (some nsI)
    let nsName ← asString (mapGet nsConf "name")
    let storage ← asMap (mapGet nsConf "storage-engine")
    let dl2 ← sedlDevBranch nsName dl (mapGet storage "devices")
    let fl2 ← sedlFileBranch nsName fl (mapGet storage "files")
    sedlLoop rest (dl2, fl2)

/-- `validateStorageEngineDeviceList` (source part_001): no device or file may
be claimed by two namespaces of the same descriptor. -/
def validateStorageEngineDeviceList (nsConfList : List CVal) :
    Res (List (String × String) × List (String × String)) :=
  sedlLoop nsConfList ([], [])

def sedluDevices (nsName : String) (deviceList : List (String × String)) :
    List CVal → Res Unit
  | [] => .ok ()
  | dI :: rest => do
    let device ← asString (some dI)
    let cur := (lookupA deviceList device).getD ""
    if cur ≠ "" ∧ cur ≠ nsName then
      .err ("device " ++ device ++ " can not be removed and re-used in a different namespace at the same time. It has to be removed first. currentNamespace `" ++
        cur ++ "`, oldNamespace `" ++ nsName ++ "`")
    else sedluDevices nsName deviceList rest

def sedluFiles (nsName : String) (fileList : List (String × String)) :
    List CVal → Res Unit
  | [] => .ok ()
  | fI :: rest => do
    let file ← asString (some fI)
    let cur := (lookupA fileList file).getD ""
    if cur ≠ "" ∧ cur ≠ nsName then
      .err ("file " ++ file ++ " can not be removed and re-used in a different namespace at the same time. It has to be removed first. currentNamespace `" ++
        cur ++ "`, oldNamespace `" ++ nsName ++ "`")
    else sedluFiles nsName fileList rest

/-- The `devices` branch of the status reuse scan. -/
def sedluDevBranch (nsName : String) (deviceList : List (String × String)) :
    Option CVal → Res Unit
  | none => Res.ok ()
  | some devs => do
    let devList ← asList (some devs)
    sedluDevices nsName deviceList devList

/-- The `files` branch of the status reuse scan. -/
def sedluFileBranch (nsName : String) (fileList : List (String × String)) :
    Option CVal → Res Unit
  | none => Res.ok ()
  | some fs => do
    let fList ← asList (some fs)
    sedluFiles nsName fileList fList

/-- Status loop of `validateStorageEngineDeviceListUpdate`: a device/file that
the status assigns to one namespace may not be claimed by a different
namespace in the incoming spec. -/
def sedluStatusLoop (deviceList fileList : List (String × String)) :
    List CVal → Res Unit
  | [] => .ok ()
  | nsI :: rest => do
    let nsConf ← asMap (some nsI)
    let nsName ← asString (mapGet nsConf "name")
    let storage ← asMap (mapGet nsConf "storage-engine")
    sedluDevBranch nsName deviceList (mapGet storage "devices")
    sedluFileBranch nsName fileList (mapGet storage "files")
    sedluStatusLoop deviceList fileList rest

def validateStorageEngineDeviceListUpdate (nsConfList statusNsConfList : List CVal) :
    Res Unit := do
  let maps ← validateStorageEngineDeviceList nsConfList
  sedluStatusLoop maps.1 maps.2 statusNsConfList

/-- Inner loop of `validateNsConfUpdate`: compare one new namespace against
every old namespace of the same name — `replication-factor` and
`strong-consistency` may not change. -/
def nsMatchLoopOld (singleConf : ConfMap) : List CVal → Res Unit
  | [] => .ok ()
  | oldI :: rest =>
    match oldI with
    | .m oldSingleConf =>
      if mapGet singleConf "name" = mapGet oldSingleConf "name" then
        if isValueUpdated oldSingleConf singleConf "replication-factor" then
          .err ("replication-factor cannot be updated. old nsconf " ++
            (CVal.m oldSingleConf).render ++ ", new nsconf " ++ (CVal.m singleConf).render)
        else if isValueUpdated oldSingleConf singleConf "strong-consistency" then
          .err ("strong-consistency cannot be updated. old nsconf " ++
            (CVal.m oldSingleConf).render ++ ", new nsconf " ++ (CVal.m singleConf).render)
        else nsMatchLoopOld singleConf rest
      else nsMatchLoopOld singleConf rest
    | _ => .err ("namespace conf not in valid format " ++ oldI.render)

/-- Outer loop of `validateNsConfUpdate` over the new namespace list. -/
def nsNewLoop (oldNsConfList : List CVal) : List CVal → Res Unit
  | [] => .ok ()
  | newI :: rest =>
    match newI with
    | .m singleConf => do
      nsMatchLoopOld singleConf oldNsConfList
      nsNewLoop oldNsConfList rest
    | _ => .err ("namespace conf not in valid format " ++ newI.render)

/-- The status namespace list used by `validateNsConfUpdate`: empty when there
is no status or the status config is empty. -/
def statusNsListRes (currentStatus : Option ConfMap) : Res (List CVal) :=
  match currentStatus with
  | some st => if st.isEmpty then pure ([] : List CVal) else asList (mapGet st "namespaces")
  | none => pure ([] : List CVal)

/-- `validateNsConfUpdate` (source part_001). -/
def validateNsConfUpdate (newConfSpec oldConfSpec : ConfMap) (currentStatus : Option ConfMap) :
    Res Unit := do
  let statusNsConfList ← statusNsListRes currentStatus
  let newNsConfList ← asList (mapGet newConfSpec "namespaces")
  let oldNsConfList ← asList (mapGet oldConfSpec "namespaces")
  nsNewLoop oldNsConfList newNsConfList
  validateStorageEngineDeviceListUpdate newNsConfList statusNsConfList

/-! ## `validateAerospikeConfigUpdate` (source part_001, lines 1354-1380). -/

def connectionTypesUpdateLoop (newConf oldConf : ConfMap) : List String → Res Unit
  | [] => .ok ()
  | t :: rest => do
    validateNetworkConnectionUpdate newConf oldConf t
    connectionTypesUpdateLoop newConf oldConf rest

def validateAerospikeConfigUpdate (incomingSpec outgoingSpec : ConfMap)
    (currentStatus : Option ConfMap) : Res Unit := do
  validateSecurityConfigUpdate incomingSpec outgoingSpec currentStatus
  validateTLSUpdate outgoingSpec incomingSpec
  connectionTypesUpdateLoop incomingSpec outgoingSpec networkConnectionTypes
  validateNsConfUpdate incomingSpec outgoingSpec currentStatus

/-! ## `validateNetworkPolicyUpdate` (source part_001, lines 1515-1535) and
`validateRackUpdate` (lines 449-518). -/

def validateNetworkPolicyUpdate (oldPolicy newPolicy : AerospikeNetworkPolicy) : Res Unit :=
  if oldPolicy.fabricType ≠ newPolicy.fabricType then
    .err "cannot update fabric type"
  else if oldPolicy.tlsFabricType ≠ newPolicy.tlsFabricType then
    .err "cannot update tlsFabric type"
  else if newPolicy.fabricType = .customInterface ∧
      oldPolicy.customFabricNetworkNames ≠ newPolicy.customFabricNetworkNames then
    .err "cannot change/update customFabricNetworkNames"
  else if newPolicy.tlsFabricType = .customInterface ∧
      oldPolicy.customTLSFabricNetworkNames ≠ newPolicy.customTLSFabricNetworkNames then
    .err "cannot change/update customTLSFabricNetworkNames"
  else .ok ()

/-- Rendering used for `%v` of a rack in error messages. -/
def Rack.render (r : Rack) : String :=
  "\x7b" ++ toString r.id ++ " " ++ r.nodeName ++ " " ++ r.rackLabel ++ " " ++
    r.region ++ " " ++ r.zone ++ "\x7d"

/-- The loop of `validateRackUpdate` over the old racks: for an old rack whose
ID survives, the identity fields are frozen and config/storage changes are
re-validated. -/
def rackUpdateLoopOld (c : AerospikeCluster) : List Rack → Res Unit
  | [] => .ok ()
  | oldRack :: rest => do
    (match c.spec.rackConfig.racks.find? (fun nr => nr.id = oldRack.id) with
     | none => Res.ok ()
     | some newRack =>
       if oldRack.nodeName ≠ newRack.nodeName ∨ oldRack.rackLabel ≠ newRack.rackLabel ∨
           oldRack.region ≠ newRack.region ∨ oldRack.zone ≠ newRack.zone then
         Res.err ("old RackConfig (NodeName, RackLabel, Region, Zone) cannot be updated. Old rack " ++
           oldRack.render ++ ", new rack " ++ newRack.render)
       else do
         (if oldRack.aerospikeConfig.length ≠ 0 ∨ newRack.aerospikeConfig.length ≠ 0 then
            let rackStatusConfig :=
              (c.status.rackConfig.racks.find? (fun sr => sr.id = newRack.id)).map
                (fun sr => sr.aerospikeConfig)
            match validateAerospikeConfigUpdate newRack.aerospikeConfig oldRack.aerospikeConfig
                rackStatusConfig with
            | .ok _ => Res.ok ()
            | .err e =>
              Res.err ("invalid update in Rack(ID: " ++ toString oldRack.id ++
                ") aerospikeConfig: " ++ e)
            | .panics p => Res.panics p
          else Res.ok ())
         (if oldRack.storage.volumes.length ≠ 0 ∨ newRack.storage.volumes.length ≠ 0 then
            match validateStorageSpecChange oldRack.storage newRack.storage with
            | .ok _ => Res.ok ()
            | .err e => Res.err ("rack storage config cannot be updated: " ++ e)
            | .panics p => Res.panics p
          else Res.ok ()))
    rackUpdateLoopOld c rest

/-- `validateRackUpdate` (source part_001): a deep-equal rack config is
accepted immediately; otherwise surviving racks are checked. -/
def validateRackUpdate (c old : AerospikeCluster) : Res Unit :=
  if c.spec.rackConfig = old.spec.rackConfig then .ok ()
  else rackUpdateLoopOld c old.spec.rackConfig.racks

/-! ## Path helpers (source part_001, lines 1970-1990; `filepath.Dir` and the
`filepath.Rel`-based parent test are modelled on clean absolute paths, the only
shape the configuration carries). -/

/-- Splitting a character list at path separators (kernel-reducible helper
behind `filepathDir`). -/
def splitOnSlash : List Char → List (List Char)
  | [] => [[]]
  | x :: rest =>
    let r := splitOnSlash rest
    if x = '/' then [] :: r
    else
      match r with
      | [] => [[x]]
      | h :: t => (x :: h) :: t

/-- Model of Go `filepath.Dir` for clean paths: everything before the final
path separator. -/
def filepathDir (p : String) : String :=
  match (splitOnSlash p.data).dropLast with
  | [] => "."
  | [[]] => "/"
  | parts => String.mk (List.intercalate (['/'] : List Char) parts)

/-- `isPathParentOrSame` (source part_001), modelled for clean absolute paths:
`dir1` is `dir2` itself or an ancestor of it. -/
def isPathParentOrSame (dir1 dir2 : String) : Bool :=
  dir1 = dir2 || strIsPre (dir1 ++ "/") dir2

/-- `isFileStorageConfiguredForDir` (source part_001). -/
def isFileStorageConfiguredForDir (fileStorageList : List String) (dir : String) : Bool :=
  fileStorageList.any (fun storageMount => isPathParentOrSame storageMount dir)

/-! ## `validateNamespaceConfig` (source part_001, lines 1026-1245) and its
per-namespace checks. -/

def isMRTFieldSet (nsConf : ConfMap) : Bool :=
  ["mrt-duration", "disable-mrt-writes"].any (fun field => (mapGet nsConf field).isSome)

def validateMRTFields (nsConf : ConfMap) : Res Unit := do
  let mrtField := isMRTFieldSet nsConf
  let scEnabled ← IsNSSCEnabled nsConf
  if !scEnabled && mrtField then
    .err ("MRT fields are not allowed in non-SC namespace " ++ (CVal.m nsConf).render)
  else .ok ()

def validateNamespaceReplicationFactor (nsConf : ConfMap) (clSize : Int) : Res Unit := do
  let rf ← getNamespaceReplicationFactor nsConf
  let scEnabled ← IsNSSCEnabled nsConf
  if scEnabled ∧ clSize < rf then
    .err ("strong-consistency namespace replication-factor " ++ toString rf ++
      " cannot be more than cluster size " ++ toString clSize)
  else .ok ()

/-- The rejection message for a namespace device path absent from the declared
block-storage volumes (source part_001, lines 1118-1123): it names the device
path and the storage config — the namespace is not part of the message. -/
def deviceNotFoundMsg (dev : String) (storage : AerospikeStorageSpec) : String :=
  "namespace storage device related devicePath " ++ dev ++
    " not found in Storage config " ++ storage.render

/-- Tokens of one device entry, each of which must be a declared block device. -/
def nsDeviceTokensLoop (blockStorageDeviceList : List String)
    (storage : AerospikeStorageSpec) : List String → Res Unit
  | [] => .ok ()
  | dev :: rest =>
    if !ContainsString blockStorageDeviceList dev then
      .err (deviceNotFoundMsg dev storage)
    else nsDeviceTokensLoop blockStorageDeviceList storage rest

/-- Loop over a namespace's `storage-engine.devices` entries. -/
def nsDeviceEntriesLoop (blockStorageDeviceList : List String)
    (storage : AerospikeStorageSpec) : List CVal → Res Unit
  | [] => .ok ()
  | dI :: rest =>
    match dI with
    | .s devRaw =>
      let device := stringsTrim devRaw
      if (stringsFields device).length > 2 then
        .err ("invalid device name " ++ device ++
          ". Max 2 device can be mentioned in single line (Shadow device config)")
      else do
        nsDeviceTokensLoop blockStorageDeviceList storage (stringsFields device)
        nsDeviceEntriesLoop blockStorageDeviceList storage rest
    | _ => .err ("namespace storage device not valid string " ++ dI.render)

/-- Tokens of one file entry, each of whose directories must be covered by a
declared filesystem volume. -/
def nsFileTokensLoop (fileStorageList : List String)
    (storage : AerospikeStorageSpec) : List String → Res Unit
  | [] => .ok ()
  | f :: rest =>
    let dirPath := filepathDir f
    if !isFileStorageConfiguredForDir fileStorageList dirPath then
      .err ("namespace storage file related mountPath " ++ dirPath ++
        " not found in storage config " ++ storage.render)
    else nsFileTokensLoop fileStorageList storage rest

/-- Loop over a namespace's `storage-engine.files` entries. -/
def nsFileEntriesLoop (fileStorageList : List String)
    (storage : AerospikeStorageSpec) : List CVal → Res Unit
  | [] => .ok ()
  | fI :: rest =>
    match fI with
    | .s fRaw =>
      let file := stringsTrim fRaw
      if (stringsFields file).length > 2 then
        .err ("invalid file name " ++ file ++
          ". Max 2 file can be mentioned in single line (Shadow file config)")
      else do
        nsFileTokensLoop fileStorageList storage (stringsFields file)
        nsFileEntriesLoop fileStorageList storage rest
    | _ => .err ("namespace storage file not valid string " ++ fI.render)

/-- The `storage-engine.devices` branch of the per-namespace check. -/
def devicesBranch (blockStorageDeviceList : List String) (storage : AerospikeStorageSpec)
    (seRender : String) : Option CVal → Res Unit
  | none => .ok ()
  | some (.lst devList) =>
    if devList.length = 0 then
      .err ("no devices for namespace storage " ++ seRender)
    else nsDeviceEntriesLoop blockStorageDeviceList storage devList
  | some _ => .err ("namespace storage device format not valid " ++ seRender)

/-- The `storage-engine.files` branch of the per-namespace check. -/
def filesBranch (fileStorageList : List String) (storage : AerospikeStorageSpec)
    (seRender : String) : Option CVal → Res Unit
  | none => .ok ()
  | some (.lst fList) =>
    if fList.length = 0 then
      .err ("no files for namespace storage " ++ seRender)
    else nsFileEntriesLoop fileStorageList storage fList
  | some _ => .err ("namespace storage files format not valid " ++ seRender)

/-- The storage-engine part of the per-namespace check of
`validateNamespaceConfig`: memory namespaces skip the device/file checks,
device/pmem namespaces must have well-formed, storage-covered device and file
entries. -/
def nsStorageEngineCheck (nsConf : ConfMap) (blockStorageDeviceList fileStorageList : List String)
    (storage : AerospikeStorageSpec) : Res Unit :=
  match mapGet nsConf "storage-engine" with
  | none => .err "storage-engine config is required for namespace"
  | some nsStorage => do
    let inMem ← isInMemoryNamespace nsConf
    if inMem then .ok ()
    else do
      let devOrPmem ← isDeviceOrPmemNamespace nsConf
      if !devOrPmem then
        .err ("storage-engine not supported for namespace " ++ (CVal.m nsConf).render)
      else do
        let nsStorageMap ← asMap (some nsStorage)
        devicesBranch blockStorageDeviceList storage nsStorage.render
          (mapGet nsStorageMap "devices")
        filesBranch fileStorageList storage nsStorage.render (mapGet nsStorageMap "files")

/-- The first loop of `validateNamespaceConfig` over the namespace list. -/
def nsConfMainLoop (blockStorageDeviceList fileStorageList : List String)
    (storage : AerospikeStorageSpec) (clSize : Int) : List CVal → Res Unit
  | [] => .ok ()
  | nsI :: rest =>
    match nsI with
    | .m nsConf => do
      validateNamespaceReplicationFactor nsConf clSize
      validateMRTFields nsConf
      nsStorageEngineCheck nsConf blockStorageDeviceList fileStorageList storage
      nsConfMainLoop blockStorageDeviceList fileStorageList storage clSize rest
    | _ => .err ("namespace conf not in valid format " ++ nsI.render)

/-- The index-type loop of `validateNamespaceConfig`: non-shmem index mounts
must be declared filesystem volumes. -/
def nsIndexMountsLoop (fileStorageList : List String) (storage : AerospikeStorageSpec) :
    List CVal → Res Unit
  | [] => .ok ()
  | mI :: rest =>
    match mI with
    | .s mount =>
      if !ContainsString fileStorageList mount then
        .err ("namespace index-type mount " ++ mount ++ " not found in Storage config " ++
          storage.render)
      else nsIndexMountsLoop fileStorageList storage rest
    | _ => .err ("namespace index-type mount not valid string " ++ mI.render)

/-- The `index-type.mounts` branch of the index-type check. -/
def mountsBranch (fileStorageList : List String) (storage : AerospikeStorageSpec)
    (idxRender : String) : Option CVal → Res Unit
  | none => .ok ()
  | some (.lst mountList) =>
    if mountList.length = 0 then
      .err ("no mounts for namespace index-type " ++ idxRender)
    else nsIndexMountsLoop fileStorageList storage mountList
  | some _ => .err ("namespace index-type mounts format not valid " ++ idxRender)

def nsIndexTypeLoop (fileStorageList : List String) (storage : AerospikeStorageSpec) :
    List CVal → Res Unit
  | [] => .ok ()
  | nsI :: rest =>
    match nsI with
    | .m nsConf => do
      let shmem ← isShMemIndexTypeNamespace nsConf
      if shmem then nsIndexTypeLoop fileStorageList storage rest
      else do
        (match mapGet nsConf "index-type" with
         | none => Res.ok ()
         | some nsIndexStorage => do
           let idxMap ← asMap (some nsIndexStorage)
           mountsBranch fileStorageList storage nsIndexStorage.render (mapGet idxMap "mounts"))
        nsIndexTypeLoop fileStorageList storage rest
    | _ => .err ("namespace conf not in valid format " ++ nsI.render)

/-- `validateNamespaceConfig` (source part_001). -/
def validateNamespaceConfig (nsConfInterfaceList : List CVal)
    (storage : AerospikeStorageSpec) (clSize : Int) : Res Unit := do
  if nsConfInterfaceList.length = 0 then
    .err "aerospikeConfig.namespace list cannot be empty"
  else do
    let lists := getAerospikeStorageList storage true
    nsConfMainLoop lists.1 lists.2 storage clSize nsConfInterfaceList
    let _ ← validateStorageEngineDeviceList nsConfInterfaceList
    nsIndexTypeLoop lists.2 storage nsConfInterfaceList

/-! ## Structural network validation (source part_001, lines 797-1023). -/

def validateLoggingConf (loggingConfList : List CVal) : Res Unit :=
  match loggingConfList with
  | [] => .ok ()
  | logI :: rest =>
    match logI with
    | .m logConf =>
      if mapGet logConf "name" ≠ some (.s "syslog") then
        match ["facility", "path", "tag"].find? (fun param => (mapGet logConf param).isSome) with
        | some param =>
          .err ("can use " ++ param ++ " only with `syslog` in aerospikeConfig.logging " ++
            (CVal.m logConf).render)
        | none => validateLoggingConf rest
      else validateLoggingConf rest
    | _ => .err "aerospikeConfig.logging not a list of valid map map[]"

/-- Operator client certificate reference (api/v1 types): only the fields the
embedded checks read. -/
structure AerospikeOperatorClientCertSpec where
  tlsClientName : String
  clientCertPathInOperator : Option String
deriving Repr, DecidableEq

/-- Modelled from the spec: `readNamesFromLocalCertificate` reads the
operator-local client certificate from the filesystem — an external, fallible
effect.  Without a configured local path it returns no names; with one, the
read is outside this pure embedding and is modelled as the read failure Go
produces when the file is unavailable. -/
def readNamesFromLocalCertificate (clientCertSpec : Option AerospikeOperatorClientCertSpec) :
    Res (List String) :=
  match clientCertSpec with
  | none => .ok []
  | some spec =>
    match spec.clientCertPathInOperator with
    | none => .ok []
    | some path =>
      if path = "" then .ok []
      else .err ("open " ++ path ++ ": no such file or directory")

/-- Modelled from the spec: the external `govalidator.IsDNSName` test. -/
def isDNSName (st : String) : Bool :=
  !st.isEmpty && st.length < 254 && st.all (fun ch => ch.isAlphanum || ch = '-' || ch = '.')

/-- `ValidateTLSAuthenticateClient` (source part_001). -/
def ValidateTLSAuthenticateClient (serviceConf : ConfMap) : Res (List String) :=
  match mapGet serviceConf "tls-authenticate-client" with
  | none => .ok []
  | some (.s value) =>
    if value = "any" ∨ value = "false" then .ok []
    else .err ("tls-authenticate-client contains invalid value: " ++ value)
  | some (.b value) =>
    if !value then .ok []
    else .err ("tls-authenticate-client contains invalid value: " ++ toString value)
  | some (.lst value) =>
    let rec collectDNS : List CVal → List String → Res (List String)
      | [], acc => .ok acc
      | .s dnsName :: rest, acc =>
        if !isDNSName dnsName then
          .err ("tls-authenticate-client contains invalid dns-name: " ++ dnsName)
        else collectDNS rest (acc ++ [dnsName])
      | v :: _, _ =>
        .err ("tls-authenticate-client contains invalid type value: " ++ v.render)
    collectDNS value []
  | some config =>
    .err ("tls-authenticate-client contains invalid type value: " ++ config.render)

def containsAnyName (clientNames namesToFind : List String) : Bool :=
  clientNames.any (fun clientName => namesToFind.contains clientName)

/-- `validateTLSClientNames` (source part_001). -/
def validateTLSClientNames (serviceConf : ConfMap)
    (clientCertSpec : Option AerospikeOperatorClientCertSpec) : Res Unit := do
  let dnsnames ← ValidateTLSAuthenticateClient serviceConf
  if dnsnames.length = 0 then .ok ()
  else do
    let localCertNames ← readNamesFromLocalCertificate clientCertSpec
    if !containsAnyName dnsnames localCertNames && localCertNames.length > 0 then
      .err "tls-authenticate-client doesn't contain name from Operator's certificate, configure OperatorClientCertSpec.TLSClientName properly"
    else .ok ()

/-- `validateNetworkConnection` (source part_001): a present connection section
must pair `tls-name` with `tls-port` and must not carry `tls-` parameters
without a `tls-name`. -/
def validateNetworkConnection (networkConf : ConfMap) (tlsNames : List String)
    (connectionType : String) : Res Unit :=
  match mapGet networkConf connectionType with
  | none => .ok ()
  | some connectionConfig => do
    let connectionConfigMap ← asMap (some connectionConfig)
    match mapGet connectionConfigMap "tls-name" with
    | some tlsName =>
      if !(mapGet connectionConfigMap "tls-port").isSome then
        .err ("you can't specify tls-name for network." ++ connectionType ++
          " without specifying tls-port")
      else do
        let tn ← asString (some tlsName)
        if !tlsNames.contains tn then
          .err ("tls-name " ++ tn ++ " is not configured")
        else .ok ()
    | none =>
      match (connectionConfigMap.map (fun kv => kv.1)).find?
          (fun param => strIsPre "tls-" param) with
      | some param =>
        .err ("you can't specify " ++ param ++ " for network." ++ connectionType ++
          " without specifying tls-name")
      | none => .ok ()

/-- The `network.tls` scan of `validateNetworkConfig`: collect the TLS entry
names and reject entries with both `ca-path` and `ca-file`. -/
def tlsEntriesScan : List CVal → List String → Res (List String)
  | [], acc => .ok acc
  | tlsI :: rest, acc => do
    let tlsConf ← asMap (some tlsI)
    let acc2 ←
      match mapGet tlsConf "name" with
      | none => pure acc
      | some tn => do
        let tnStr ← asString (some tn)
        pure (acc ++ [tnStr])
    if (mapGet tlsConf "ca-path").isSome ∧ (mapGet tlsConf "ca-file").isSome then
      .err ("both `ca-path` and `ca-file` cannot be set in `tls`. tlsConf " ++
        (CVal.m tlsConf).render)
    else tlsEntriesScan rest acc2

def connectionTypesStructLoop (networkConf : ConfMap) (tlsNames : List String) :
    List String → Res Unit
  | [] => .ok ()
  | t :: rest => do
    validateNetworkConnection networkConf tlsNames t
    connectionTypesStructLoop networkConf tlsNames rest

/-- `validateNetworkConfig` (source part_001, lines 820-862): requires the
`network.service` section, scans TLS entries, checks client-TLS names and every
connection type. -/
def validateNetworkConfig (clientCertSpec : Option AerospikeOperatorClientCertSpec)
    (networkConf : ConfMap) : Res Unit :=
  match mapGet networkConf "service" with
  | none => .err "network.service section not found in config"
  | some serviceConf => do
    let tlsNames ←
      match mapGet networkConf "tls" with
      | none => pure ([] : List String)
      | some tlsConfListI => do
        let tlsConfList ← asList (some tlsConfListI)
        tlsEntriesScan tlsConfList []
    let serviceConfMap ← asMap (some serviceConf)
    validateTLSClientNames serviceConfMap clientCertSpec
    connectionTypesStructLoop networkConf tlsNames networkConnectionTypes

/-- `validateAerospikeConfig` (source part_001, lines 726-795), excluding the
external schema oracle (which is not part of this function). -/
def validateAerospikeConfig (clientCertSpec : Option AerospikeOperatorClientCertSpec)
    (config : ConfMap) (storage : AerospikeStorageSpec) (clSize : Int) : Res Unit := do
  let serviceConf ←
    match mapGet config "service" with
    | some (.m sc) => pure sc
    | v => Res.err ("aerospikeConfig.service not a valid map " ++
        (v.map CVal.render).getD "<nil>")
  (match mapGet serviceConf "advertise-ipv6" with
   | none => Res.ok ()
   | some v => do
     let bv ← asBool (some v)
     if bv then Res.err "advertise-ipv6 is not supported" else Res.ok ())
  (if (mapGet serviceConf "cluster-name").isSome then Res.ok ()
   else Res.err "aerospikeCluster name not found in config. Looks like object is not mutated by webhook")
  let networkConf ←
    match mapGet config "network" with
    | some (.m nc) => pure nc
    | v => Res.err ("aerospikeConfig.network not a valid map " ++
        (v.map CVal.render).getD "<nil>")
  validateNetworkConfig clientCertSpec networkConf
  (match mapGet config "namespaces" with
   | none => Res.err "aerospikeConfig.namespace not a present"
   | some nsListI =>
     match nsListI with
     | .lst nsList => validateNamespaceConfig nsList storage clSize
     | v => Res.err ("aerospikeConfig.namespace not valid namespace list " ++ v.render))
  match mapGet config "logging" with
  | some (.lst loggingConfList) => validateLoggingConf loggingConfList
  | v =>
    Res.err ("aerospikeConfig.logging not a valid list " ++ (v.map CVal.render).getD "<nil>")

/-! ## Concrete descriptors used to exercise the theorems. -/

def emptyNetworkPolicy : AerospikeNetworkPolicy :=
  { fabricType := .hostInternal, tlsFabricType := .hostInternal,
    customFabricNetworkNames := [], customTLSFabricNetworkNames := [] }

def exStorageEmpty : AerospikeStorageSpec := ⟨[]⟩

def exRackConfigEmpty : RackConfig :=
  { racks := [], namespaces := [], rollingUpdateBatchSize := none, scaleDownBatchSize := none }

def exStatusEmpty : AerospikeClusterStatus := ⟨none, exRackConfigEmpty⟩

def exClusterPDB : AerospikeCluster :=
  { spec :=
    { size := 2, image := "aerospike/aerospike-server-enterprise:8.0.0.2",
      multiPodPerHost := none, disablePDB := some true, maxUnavailable := some (.int 5),
      storage := exStorageEmpty, rackConfig := exRackConfigEmpty, aerospikeConfig := [],
      networkPolicy := emptyNetworkPolicy },
    status := exStatusEmpty }

/-- A config tree whose security stanza is present (security enabled). -/
def confWithSecurity : ConfMap :=
  [("security", .m []), ("service", .m [("cluster-name", .s "aerocluster")])]

/-- A config tree without a security stanza (security disabled). -/
def confNoSecurity : ConfMap :=
  [("service", .m [("cluster-name", .s "aerocluster")]),
   ("network", .m [("service", .m [("port", .i 3000)])]),
   ("namespaces", .lst [.m [("name", .s "test"),
     ("storage-engine", .m [("type", .s "memory")])]])]

/-- Spec-level accessor: the namespace list of a configuration tree (empty for
a malformed tree). -/
def getNsList (conf : ConfMap) : List CVal :=
  match mapGet conf "namespaces" with
  | some (.lst l) => l
  | _ => []

def exNetConn : ConfMap :=
  [("port", .i 3000), ("tls-name", .s "svc-tls"), ("tls-port", .i 4333)]

def exNetMap : ConfMap :=
  [("service", .m exNetConn), ("heartbeat", .m [("port", .i 3002)]),
   ("fabric", .m [("port", .i 3001)])]

def exNetConf : ConfMap := [("network", .m exNetMap)]

def nsUpdMap : ConfMap :=
  [("name", .s "test"), ("replication-factor", .i 2), ("strong-consistency", .b false),
   ("storage-engine", .m [("type", .s "memory")])]

def confNsUpd : ConfMap := [("namespaces", .lst [.m nsUpdMap])]

/-- A full config tree with both a network section and a namespace list, used
to exercise the update validators end to end. -/
def exUpdConf : ConfMap := [("network", .m exNetMap), ("namespaces", .lst [.m nsUpdMap])]

def exNsSC : CVal :=
  .m [("name", .s "test"), ("strong-consistency", .b true),
      ("storage-engine", .m [("type", .s "device"), ("devices", .lst [.s "/dev/xvdb"])])]

def exRackA : Rack :=
  { id := 1, nodeName := "", rackLabel := "", region := "", zone := "",
    storage := exStorageEmpty, aerospikeConfig := [("namespaces", .lst [exNsSC])] }

def exRackB : Rack :=
  { exRackA with id := 2 }

def exClusterSC : AerospikeCluster :=
  { spec :=
    { size := 2, image := "aerospike/aerospike-server-enterprise:8.0.0.2",
      multiPodPerHost := none, disablePDB := none, maxUnavailable := some (.int 1),
      storage := exStorageEmpty,
      rackConfig := { racks := [exRackA, exRackB], namespaces := ["test"],
                      rollingUpdateBatchSize := none, scaleDownBatchSize := none },
      aerospikeConfig := [], networkPolicy := emptyNetworkPolicy },
    status := exStatusEmpty }

/-! ## Spec-level reference definitions for the maxUnavailable bound (these
follow the spec's words, for comparison with the embedded loop). -/

/-- Following the spec's words: the replication factor a namespace contributes
to the maxUnavailable bound — the default 2 when absent, excluded when 1. -/
def effRF (nsConf : ConfMap) : Option Int :=
  match mapGet nsConf "replication-factor" with
  | none => some 2
  | some (.i n) => if n = 1 then none else some n
  | some _ => none

def nsEffRFs (l : List CVal) : List Int :=
  l.filterMap (fun v => match v with | .m nsConf => effRF nsConf | _ => none)

def rackEffRFs (rack : Rack) : List Int :=
  nsEffRFs (match mapGet rack.aerospikeConfig "namespaces" with
            | some (.lst l) => l
            | _ => [])

/-- Following the spec's words: the claimed safe bound — cluster size lowered
to the minimum effective replication factor over all namespaces in all
racks. -/
def specSafeBound (c : AerospikeCluster) : Int :=
  ((c.spec.rackConfig.racks.map rackEffRFs).flatten).foldl min (c.spec.size : Int)

/-- Well-formedness of a namespace entry for the maxUnavailable scan: a map
whose `replication-factor`, when present, is an int that is at least 1. -/
def wfRFNs (v : CVal) : Bool :=
  match v with
  | .m nsConf =>
    match mapGet nsConf "replication-factor" with
    | none => true
    | some (.i n) => 1 ≤ n
    | some _ => false
  | _ => false

def wfRFRack (rack : Rack) : Bool :=
  match mapGet rack.aerospikeConfig "namespaces" with
  | some (.lst l) => l.all wfRFNs
  | _ => false

/-- A rack carrying a namespace with replication-factor 0 followed by a
namespace with no replication-factor. -/
def exRackRF0 : Rack :=
  { id := 1, nodeName := "", rackLabel := "", region := "", zone := "",
    storage := exStorageEmpty,
    aerospikeConfig := [("namespaces", .lst [
      .m [("name", .s "ns0"), ("replication-factor", .i 0)],
      .m [("name", .s "ns1")]])] }

def exClusterRF0 : AerospikeCluster :=
  { spec :=
    { size := 5, image := "aerospike/aerospike-server-enterprise:8.0.0.2",
      multiPodPerHost := none, disablePDB := none, maxUnavailable := some (.int 1),
      storage := exStorageEmpty,
      rackConfig := { racks := [exRackRF0], namespaces := ["ns0", "ns1"],
                      rollingUpdateBatchSize := none, scaleDownBatchSize := none },
      aerospikeConfig := [], networkPolicy := emptyNetworkPolicy },
    status := exStatusEmpty }

/-- A rack with namespaces of replication factors 3 and 2. -/
def exRack32 : Rack :=
  { id := 1, nodeName := "", rackLabel := "", region := "", zone := "",
    storage := exStorageEmpty,
    aerospikeConfig := [("namespaces", .lst [
      .m [("name", .s "ns0"), ("replication-factor", .i 3)],
      .m [("name", .s "ns1"), ("replication-factor", .i 2)]])] }

def exCluster5mu (mu : Int) : AerospikeCluster :=
  { spec :=
    { size := 5, image := "aerospike/aerospike-server-enterprise:8.0.0.2",
      multiPodPerHost := none, disablePDB := none, maxUnavailable := some (.int mu),
      storage := exStorageEmpty,
      rackConfig := { racks := [exRack32], namespaces := ["ns0", "ns1"],
                      rollingUpdateBatchSize := none, scaleDownBatchSize := none },
      aerospikeConfig := [], networkPolicy := emptyNetworkPolicy },
    status := exStatusEmpty }

/-! ## Spec-level reference definitions for the batch-size topology conditions. -/

/-- The name of a namespace entry of the config tree (none when malformed). -/
def nameOfNs (v : CVal) : Option String :=
  match v with
  | .m nsConf =>
    match mapGet nsConf "name" with
    | some (.s n) => some n
    | _ => none
  | _ => none

/-- The namespace entries of a rack's config tree. -/
def rackNsList (rack : Rack) : List CVal :=
  match mapGet rack.aerospikeConfig "namespaces" with
  | some (.lst l) => l
  | _ => []

def nsNamesOfRack (rack : Rack) : List String :=
  (rackNsList rack).filterMap nameOfNs

/-- How many racks of the rack config list a namespace of the given name. -/
def racksListing (rc : RackConfig) (ns : String) : Nat :=
  (rc.racks.filter (fun r => decide (ns ∈ nsNamesOfRack r))).length

/-- The replication factor of a namespace entry as `getNsConfForNamespaces`
reads it (parse failures yield the Go zero value 0). -/
def rfOfNs (nsConf : ConfMap) : Int :=
  match getNamespaceReplicationFactor nsConf with
  | .ok v => v
  | .err _ => 0
  | .panics _ => 0

/-- The strong-consistency flag of a namespace entry (false when malformed). -/
def scOfNs (nsConf : ConfMap) : Bool :=
  match IsNSSCEnabled nsConf with
  | .ok v => v
  | .err _ => false
  | .panics _ => false

/-- The rack count recorded for a namespace name in the accumulator of
`getNsConfForNamespaces` (0 when absent). -/
def accCount (acc : List (String × NsConf)) (ns : String) : Int :=
  match lookupA acc ns with
  | some nc => nc.noOfRacksForNamespaces
  | none => 0

/-- Occurrences of a namespace name among a list of namespace entries. -/
def countNames (l : List CVal) (ns : String) : Int :=
  ((l.filterMap nameOfNs).count ns : Int)

/-- Total occurrences of a namespace name across a list of racks. -/
def totalCount (racks : List Rack) (ns : String) : Int :=
  (racks.map (fun r => countNames (rackNsList r) ns)).sum

/-- Namespace configurations agree across racks on replication factor and
strong-consistency (the premise under which per-rack entries and the
`getNsConfForNamespaces` map coincide). -/
def nsConfigsConsistent (rc : RackConfig) : Bool :=
  rc.racks.all (fun r1 => rc.racks.all (fun r2 =>
    (rackNsList r1).all (fun v1 => (rackNsList r2).all (fun v2 =>
      match v1, v2 with
      | .m m1, .m m2 =>
        if nameOfNs (.m m1) = nameOfNs (.m m2) ∧ (nameOfNs (.m m1)).isSome then
          rfOfNs m1 = rfOfNs m2 ∧ scOfNs m1 = scOfNs m2
        else true
      | _, _ => true))))

/-- The spec-level safety conditions for using a batch size on a rack
topology: at least two racks, and every namespace entry of every rack is
well-formed, rack-enabled, present in more than one rack, has replication
factor above 1, and — for scale-down — is not strong-consistency enabled. -/
def batchSafeTopology (rc : RackConfig) (rollingUpdateBatch : Bool) : Prop :=
  2 ≤ rc.racks.length ∧
  ∀ rack ∈ rc.racks, ∀ v ∈ rackNsList rack,
    ∃ nsMap ns, v = CVal.m nsMap ∧ nameOfNs v = some ns ∧
      isNameExist rc.namespaces ns = true ∧
      1 < racksListing rc ns ∧
      1 < rfOfNs nsMap ∧
      (rollingUpdateBatch = false → scOfNs nsMap = false)

def exRackT1 : Rack :=
  { id := 1, nodeName := "", rackLabel := "", region := "", zone := "",
    storage := exStorageEmpty,
    aerospikeConfig := [("namespaces", .lst [
      .m [("name", .s "test"), ("replication-factor", .i 2)]])] }

def exRackT2 : Rack :=
  { exRackT1 with id := 2 }

def exClusterBatch : AerospikeCluster :=
  { spec :=
    { size := 4, image := "aerospike/aerospike-server-enterprise:8.0.0.2",
      multiPodPerHost := none, disablePDB := none, maxUnavailable := some (.int 1),
      storage := exStorageEmpty,
      rackConfig := { racks := [exRackT1, exRackT2], namespaces := ["test"],
                      rollingUpdateBatchSize := some (.int 1), scaleDownBatchSize := none },
      aerospikeConfig := [], networkPolicy := emptyNetworkPolicy },
    status := exStatusEmpty }

/-- Substring scan behind `strContains`. -/
def containsCore (needle : List Char) : List Char → Bool
  | [] => needle.isEmpty
  | c :: rest => needle.isPrefixOf (c :: rest) || containsCore needle rest

/-- Substring test used to talk about what a rejection message names. -/
def strContains (hay needle : String) : Bool :=
  containsCore needle.data hay.data

/-- A device/pmem namespace called `userdata` claiming an undeclared device. -/
def exNsBadDevMap : ConfMap :=
  [("name", .s "userdata"),
   ("storage-engine", .m [("type", .s "device"), ("devices", .lst [.s "/dev/bad"])])]

def exNsBadList : List CVal := [.m exNsBadDevMap]

/-- A storage spec declaring one block volume, at `/dev/xvdb`. -/
def exStorageVol : AerospikeStorageSpec :=
  ⟨[{ name := "vol1", mode := .block, source := .persistentVolume "ssd",
      aerospikePath := some "/dev/xvdb", cascadeDelete := false }]⟩

def Res.isPanics {α : Type} : Res α → Bool
  | .panics _ => true
  | _ => false

/-- A config tree passing structural validation with only the `network.service`
sub-section: service, network (service only), a memory namespace, empty
logging. -/
def exStructConf : ConfMap :=
  [("service", .m [("cluster-name", .s "aerocluster")]),
   ("network", .m [("service", .m [("port", .i 3000)])]),
   ("namespaces", .lst [.m [("name", .s "test"),
     ("storage-engine", .m [("type", .s "memory")])]]),
   ("logging", .lst [])]

/-- Well-formedness of a connection section for the update checks: a map whose
`tls-name`, when present, is a string. -/
def wfConnSection (v : CVal) : Bool :=
  match v with
  | .m cm =>
    (match mapGet cm "tls-name" with
     | none => true
     | some (.s _) => true
     | some _ => false)
  | _ => false

/-- Well-formedness of a `network.tls` entry for the update checks: a map with
a string `name` and string `ca-file`/`ca-path` when present. -/
def wfTLSEntry (v : CVal) : Bool :=
  match v with
  | .m tm =>
    (match mapGet tm "name" with
     | some (.s _) => true
     | _ => false) &&
    (match mapGet tm "ca-file" with
     | none => true
     | some (.s _) => true
     | some _ => false) &&
    (match mapGet tm "ca-path" with
     | none => true
     | some (.s _) => true
     | some _ => false)
  | _ => false

/-- Well-formedness of a namespace entry for the update checks: a map with a
string `name`, a map `storage-engine` whose `devices`/`files`, when present,
are lists of strings. -/
def wfNsEntryUpd (v : CVal) : Bool :=
  match v with
  | .m nsConf =>
    (match mapGet nsConf "name" with
     | some (.s _) => true
     | _ => false) &&
    (match mapGet nsConf "storage-engine" with
     | some (.m se) =>
       (match mapGet se "devices" with
        | none => true
        | some (.lst dl) => dl.all (fun d => match d with | .s _ => true | _ => false)
        | some _ => false) &&
       (match mapGet se "files" with
        | none => true
        | some (.lst fl) => fl.all (fun d => match d with | .s _ => true | _ => false)
        | some _ => false)
     | _ => false)
  | _ => false

/-- Well-formedness of a whole tree for the update checks: a network map with
all three connection-type sections present as well-formed maps and, when a
`tls` list exists, well-formed entries; plus a list of well-formed namespace
entries. -/
def wfConfForUpdate (conf : ConfMap) : Bool :=
  (match mapGet conf "network" with
   | some (.m net) =>
     networkConnectionTypes.all (fun t =>
       match mapGet net t with
       | some v => wfConnSection v
       | none => false) &&
     (match mapGet net "tls" with
      | none => true
      | some (.lst tl) => tl.all wfTLSEntry
      | some _ => false)
   | _ => false) &&
  (match mapGet conf "namespaces" with
   | some (.lst nl) => nl.all wfNsEntryUpd
   | _ => false)

/-- Well-formedness of the status tree for the update checks. -/
def wfStatusConf (st : Option ConfMap) : Bool :=
  match st with
  | none => true
  | some stc =>
    stc.isEmpty ||
      (match mapGet stc "namespaces" with
       | some (.lst nl) => nl.all wfNsEntryUpd
       | _ => false)

/-- The MultiPodPerHost immutability check of `ValidateUpdate` (source
part_001, lines 135-138). -/
def mpphCheck (new old : AerospikeClusterSpec) : Res Unit :=
  if GetBool new.multiPodPerHost ≠ GetBool old.multiPodPerHost then
    .err "cannot update MultiPodPerHost setting"
  else .ok ()

/-- Spec-level accessor: the `name` value of a namespace entry (none for a
non-map entry). -/
def nsNameKey : CVal → Option CVal
  | .m m => mapGet m "name"
  | _ => none

/-- Spec-level accessor: the namespace list the status contributes to
`validateNsConfUpdate` (empty for no or an empty status). -/
def statusNsList : Option ConfMap → List CVal
  | none => []
  | some stc =>
    if stc.isEmpty then []
    else
      match mapGet stc "namespaces" with
      | some (.lst l) => l
      | _ => []

/-- A cluster whose spec carries the full example config tree, used to
exercise the self-update checks. -/
def exClusterSelf : AerospikeCluster :=
  { spec :=
    { size := 2, image := "aerospike/aerospike-server-enterprise:8.0.0.2",
      multiPodPerHost := none, disablePDB := none, maxUnavailable := none,
      storage := exStorageEmpty, rackConfig := exRackConfigEmpty,
      aerospikeConfig := exUpdConf, networkPolicy := emptyNetworkPolicy },
    status := exStatusEmpty }

/-! # Theorems -/

theorem Res.bind_eq_ok {α β : Type} {x : Res α} {f : α → Res β} {b : β} :
    Res.bind x f = .ok b ↔ ∃ a, x = .ok a ∧ f a = .ok b := by
  cases x <;> simp [Res.bind]

/-- C8: with `spec.disablePDB` set, `validateMaxUnavailable` performs no
maxUnavailable validation at all: whatever the maxUnavailable value, it returns
no error and emits exactly the advisory warning string (which the caller never
turns into a rejection). -/
theorem validateMaxUnavailable_disablePDB (c : AerospikeCluster)
    (h : GetBool c.spec.disablePDB = true) :
    validateMaxUnavailable c = ([pdbDisabledWarning], .ok ()) := by
  simp [validateMaxUnavailable, h]

theorem validateMaxUnavailable_disablePDB_witness :
    GetBool exClusterPDB.spec.disablePDB = true ∧
      validateMaxUnavailable exClusterPDB = ([pdbDisabledWarning], .ok ()) :=
  ⟨rfl, validateMaxUnavailable_disablePDB exClusterPDB rfl⟩

/-- C4: when the last-observed status shows security enabled and the incoming
config disables it, `validateAerospikeConfigUpdate` rejects with the
security-downgrade error — so no admitted update ever moves from a
security-enabled running status to a security-disabled spec. -/
theorem validateAerospikeConfigUpdate_no_security_downgrade
    (newConf oldConf st : ConfMap)
    (hcur : IsSecurityEnabled st = .ok true)
    (hdes : IsSecurityEnabled newConf = .ok false) :
    validateAerospikeConfigUpdate newConf oldConf (some st) =
      .err "cannot disable cluster security in running cluster" := by
  rw [validateAerospikeConfigUpdate, validateSecurityConfigUpdate]
  simp [hcur, hdes, Res.bind]

theorem validateAerospikeConfigUpdate_no_security_downgrade_witness :
    IsSecurityEnabled confWithSecurity = .ok true ∧
      IsSecurityEnabled confNoSecurity = .ok false ∧
      validateAerospikeConfigUpdate confNoSecurity confNoSecurity (some confWithSecurity) =
        .err "cannot disable cluster security in running cluster" :=
  ⟨by decide, by decide,
    validateAerospikeConfigUpdate_no_security_downgrade confNoSecurity confNoSecurity
      confWithSecurity (by decide) (by decide)⟩

theorem checkSCRacks_ok {base : Finset String} {l : List Rack}
    (h : checkSCRacks base l = .ok ()) :
    ∀ r ∈ l, rackSCSet r = .ok base := by
  induction l with
  | nil => intro r hr; cases hr
  | cons rack rest ih =>
    intro r hr
    rw [checkSCRacks] at h
    cases htmp : rackSCSet rack with
    | ok tmp =>
      rw [htmp] at h
      simp only [Res.monadBind_eq, Res.bind_ok] at h
      by_cases heq : tmp = base
      · rw [if_pos heq] at h
        rcases List.mem_cons.mp hr with hr0 | hrr
        · rw [hr0, htmp, heq]
        · exact ih h r hrr
      · rw [if_neg heq] at h; cases h
    | err e => rw [htmp] at h; cases h
    | panics e => rw [htmp] at h; cases h

/-- C1: if `validateSCNamespaces` succeeds on a cluster descriptor, the
strong-consistency-enabled namespace name set computed from each rack's
aerospikeConfig is identical across all racks (any two racks agree, the first
rack's set being the common value); a rack whose SC set differs from the first
rack's set makes the function reject. -/
theorem validateSCNamespaces_sc_sets_identical (c : AerospikeCluster)
    (h : validateSCNamespaces c = .ok ()) :
    ∀ r1 ∈ c.spec.rackConfig.racks, ∀ r2 ∈ c.spec.rackConfig.racks,
      rackSCSet r1 = rackSCSet r2 := by
  intro r1 h1 r2 h2
  rw [validateSCNamespaces] at h
  cases hracks : c.spec.rackConfig.racks with
  | nil => rw [hracks] at h1; cases h1
  | cons rack0 rest =>
    rw [hracks] at h h1 h2
    rw [validateSCRackList] at h
    cases hbase : rackSCSet rack0 with
    | ok base =>
      rw [hbase] at h
      simp only [Res.monadBind_eq, Res.bind_ok] at h
      have hall : ∀ r ∈ rack0 :: rest, rackSCSet r = .ok base := by
        intro r hr
        rcases List.mem_cons.mp hr with hr0 | hrr
        · rw [hr0]; exact hbase
        · exact checkSCRacks_ok h r hrr
      rw [hall r1 h1, hall r2 h2]
    | err e => rw [hbase] at h; cases h
    | panics e => rw [hbase] at h; cases h

theorem validateSCNamespaces_sc_sets_identical_witness :
    validateSCNamespaces exClusterSC = .ok () ∧ rackSCSet exRackA = rackSCSet exRackB :=
  ⟨by decide,
    validateSCNamespaces_sc_sets_identical exClusterSC (by decide) exRackA (by decide)
      exRackB (by decide)⟩

theorem nsMatchLoopOld_ok {single : ConfMap} {oldL : List CVal}
    (h : nsMatchLoopOld single oldL = .ok ()) :
    ∀ oldNs : ConfMap, CVal.m oldNs ∈ oldL →
      mapGet single "name" = mapGet oldNs "name" →
      isValueUpdated oldNs single "replication-factor" = false ∧
      isValueUpdated oldNs single "strong-consistency" = false := by
  induction oldL with
  | nil => intro o ho; cases ho
  | cons head rest ih =>
    intro o ho hname
    cases head with
    | m oldSingle =>
      rw [nsMatchLoopOld] at h
      by_cases hnm : mapGet single "name" = mapGet oldSingle "name"
      · rw [if_pos hnm] at h
        cases hu1 : isValueUpdated oldSingle single "replication-factor" with
        | true => rw [hu1] at h; simp at h
        | false =>
          rw [hu1] at h
          cases hu2 : isValueUpdated oldSingle single "strong-consistency" with
          | true => rw [hu2] at h; simp at h
          | false =>
            rw [hu2] at h
            simp only [Bool.false_eq_true, if_false] at h
            rcases List.mem_cons.mp ho with h0 | hr
            · have hoeq : o = oldSingle := by
                have := h0; simp only [CVal.m.injEq] at this; exact this
              rw [hoeq]; exact ⟨hu1, hu2⟩
            · exact ih h o hr hname
      · rw [if_neg hnm] at h
        rcases List.mem_cons.mp ho with h0 | hr
        · have hoeq : o = oldSingle := by
            have := h0; simp only [CVal.m.injEq] at this; exact this
          rw [hoeq] at hname; exact absurd hname hnm
        · exact ih h o hr hname
    | s v => simp [nsMatchLoopOld] at h
    | i v => simp [nsMatchLoopOld] at h
    | b v => simp [nsMatchLoopOld] at h
    | lst v => simp [nsMatchLoopOld] at h

theorem nsNewLoop_ok {oldL L : List CVal}
    (h : nsNewLoop oldL L = .ok ()) :
    ∀ newNs : ConfMap, CVal.m newNs ∈ L → nsMatchLoopOld newNs oldL = .ok () := by
  induction L with
  | nil => intro n hn; cases hn
  | cons head rest ih =>
    intro n hn
    cases head with
    | m single =>
      rw [nsNewLoop] at h
      simp only [Res.monadBind_eq] at h
      rcases Res.bind_eq_ok.mp h with ⟨a, ha, hrest⟩
      rcases List.mem_cons.mp hn with h0 | hr
      · have hneq : n = single := by
          have := h0; simp only [CVal.m.injEq] at this; exact this
        rw [hneq]; cases a; exact ha
      · exact ih hrest n hr
    | s v => simp [nsNewLoop] at h
    | i v => simp [nsNewLoop] at h
    | b v => simp [nsNewLoop] at h
    | lst v => simp [nsNewLoop] at h

/-- C9: an update accepted by `validateNsConfUpdate` preserves, for every
namespace name present in both the old and the new aerospikeConfig, the
namespace's `replication-factor` and `strong-consistency` configuration
(value and presence alike); changing either is rejected. -/
theorem validateNsConfUpdate_preserves_rf_sc
    (newConf oldConf : ConfMap) (st : Option ConfMap)
    (h : validateNsConfUpdate newConf oldConf st = .ok ()) :
    ∀ newNs oldNs : ConfMap,
      CVal.m newNs ∈ getNsList newConf → CVal.m oldNs ∈ getNsList oldConf →
      mapGet newNs "name" = mapGet oldNs "name" →
      mapGet newNs "replication-factor" = mapGet oldNs "replication-factor" ∧
      mapGet newNs "strong-consistency" = mapGet oldNs "strong-consistency" := by
  intro newNs oldNs hnew hold hname
  rw [validateNsConfUpdate] at h
  simp only [Res.monadBind_eq] at h
  rcases Res.bind_eq_ok.mp h with ⟨stL, hstL, h1⟩
  rcases Res.bind_eq_ok.mp h1 with ⟨newL, hnewL, h2⟩
  rcases Res.bind_eq_ok.mp h2 with ⟨oldL, holdL, h3⟩
  rcases Res.bind_eq_ok.mp h3 with ⟨u, hloop, _⟩
  cases u
  have hnewLeq : getNsList newConf = newL := by
    rw [getNsList]
    cases hm : mapGet newConf "namespaces" with
    | none => rw [hm] at hnewL; exact Res.noConfusion hnewL
    | some v =>
      cases v with
      | lst l => rw [hm] at hnewL; simp [asList] at hnewL; exact hnewL
      | s a => rw [hm] at hnewL; exact Res.noConfusion hnewL
      | i a => rw [hm] at hnewL; exact Res.noConfusion hnewL
      | b a => rw [hm] at hnewL; exact Res.noConfusion hnewL
      | m a => rw [hm] at hnewL; exact Res.noConfusion hnewL
  have holdLeq : getNsList oldConf = oldL := by
    rw [getNsList]
    cases hm : mapGet oldConf "namespaces" with
    | none => rw [hm] at holdL; exact Res.noConfusion holdL
    | some v =>
      cases v with
      | lst l => rw [hm] at holdL; simp [asList] at holdL; exact holdL
      | s a => rw [hm] at holdL; exact Res.noConfusion holdL
      | i a => rw [hm] at holdL; exact Res.noConfusion holdL
      | b a => rw [hm] at holdL; exact Res.noConfusion holdL
      | m a => rw [hm] at holdL; exact Res.noConfusion holdL
  rw [hnewLeq] at hnew
  rw [holdLeq] at hold
  have hmatch := nsNewLoop_ok hloop newNs hnew
  have hres := nsMatchLoopOld_ok hmatch oldNs hold hname
  constructor
  · have := hres.1
    simp [isValueUpdated] at this
    exact this.symm
  · have := hres.2
    simp [isValueUpdated] at this
    exact this.symm

theorem validateNsConfUpdate_preserves_rf_sc_witness :
    validateNsConfUpdate confNsUpd confNsUpd none = .ok () ∧
      mapGet nsUpdMap "replication-factor" = mapGet nsUpdMap "replication-factor" ∧
      mapGet nsUpdMap "strong-consistency" = mapGet nsUpdMap "strong-consistency" :=
  ⟨by decide,
    validateNsConfUpdate_preserves_rf_sc confNsUpd confNsUpd none (by decide)
      nsUpdMap nsUpdMap (by decide) (by decide) rfl⟩

theorem validateNetworkPortUpdate_ok {oldC newC : ConfMap} {p : String}
    (h : validateNetworkPortUpdate oldC newC p = .ok ()) :
    (∀ op np, mapGet oldC p = some op → mapGet newC p = some np → op = np) ∧
    (∀ op np, mapGet oldC ("tls-" ++ p) = some op → mapGet newC ("tls-" ++ p) = some np →
      op = np) ∧
    ((mapGet newC ("tls-" ++ p) = none ∧ (mapGet oldC ("tls-" ++ p)).isSome = true) ∨
      (mapGet newC p = none ∧ (mapGet oldC p).isSome = true) →
      (mapGet oldC p).isSome = true ∧ (mapGet oldC ("tls-" ++ p)).isSome = true) := by
  rw [validateNetworkPortUpdate] at h
  simp only [Res.monadBind_eq] at h
  rcases Res.bind_eq_ok.mp h with ⟨u1, hm1, h2⟩
  rcases Res.bind_eq_ok.mp h2 with ⟨u2, hm2, h3⟩
  refine ⟨?_, ?_, ?_⟩
  · intro op np hop hnp
    rw [hop, hnp] at hm1
    by_contra hne
    simp [hne] at hm1
  · intro op np hop hnp
    rw [hop, hnp] at hm2
    by_contra hne
    simp [hne] at hm2
  · intro hrem
    have hcond : ((!(mapGet newC ("tls-" ++ p)).isSome && (mapGet oldC ("tls-" ++ p)).isSome) ||
        (!(mapGet newC p).isSome && (mapGet oldC p).isSome)) = true := by
      rcases hrem with ⟨h1, hb2⟩ | ⟨h1, hb2⟩ <;> simp [h1, hb2]
    rw [hcond] at h3
    simp only [if_true] at h3
    cases hb : ((mapGet oldC p).isSome && (mapGet oldC ("tls-" ++ p)).isSome) with
    | true =>
      have hb2 := hb
      simp only [Bool.and_eq_true] at hb2
      exact hb2
    | false => rw [hb] at h3; simp at h3

theorem portUpdateLoop_ok {oldC newC : ConfMap} {l : List String}
    (h : portUpdateLoop oldC newC l = .ok ()) :
    ∀ p ∈ l, validateNetworkPortUpdate oldC newC p = .ok () := by
  induction l with
  | nil => intro p hp; cases hp
  | cons q rest ih =>
    intro p hp
    rw [portUpdateLoop] at h
    simp only [Res.monadBind_eq] at h
    rcases Res.bind_eq_ok.mp h with ⟨u, hq, hrest⟩
    rcases List.mem_cons.mp hp with h0 | hr
    · rw [h0]; cases u; exact hq
    · exact ih hrest p hr

/-- C6: for every admitted network-connection update of any connection type:
a `tls-name` set on both sides must be unchanged; each of `port`,
`access-port`, `alternate-access-port` and their `tls-` variants, when set on
both sides, must be unchanged; and a port or tls-port set in the old config
may disappear from the new one only when the old config had both the port and
its tls counterpart. -/
theorem validateNetworkConnectionUpdate_immutable
    (newConf oldConf : ConfMap) (t : String) (oldNet newNet oldC newC : ConfMap)
    (_ht : t ∈ networkConnectionTypes)
    (hON : mapGet oldConf "network" = some (.m oldNet))
    (hOC : mapGet oldNet t = some (.m oldC))
    (hNN : mapGet newConf "network" = some (.m newNet))
    (hNC : mapGet newNet t = some (.m newC))
    (h : validateNetworkConnectionUpdate newConf oldConf t = .ok ()) :
    (∀ otn ntn, mapGet oldC "tls-name" = some otn → mapGet newC "tls-name" = some ntn →
      otn = ntn) ∧
    (∀ p ∈ networkPortsList,
      (∀ op np, mapGet oldC p = some op → mapGet newC p = some np → op = np) ∧
      (∀ op np, mapGet oldC ("tls-" ++ p) = some op → mapGet newC ("tls-" ++ p) = some np →
        op = np) ∧
      ((mapGet newC ("tls-" ++ p) = none ∧ (mapGet oldC ("tls-" ++ p)).isSome = true) ∨
        (mapGet newC p = none ∧ (mapGet oldC p).isSome = true) →
        (mapGet oldC p).isSome = true ∧ (mapGet oldC ("tls-" ++ p)).isSome = true)) := by
  rw [validateNetworkConnectionUpdate] at h
  rw [hON, hNN] at h
  simp only [asMap, Res.monadBind_eq, Res.bind_ok] at h
  rw [hOC, hNC] at h
  simp only [asMap, Res.bind_ok] at h
  rcases Res.bind_eq_ok.mp h with ⟨u1, htls, hloop⟩
  constructor
  · intro otn ntn hotn hntn
    rw [hotn, hntn] at htls
    by_contra hne
    simp [hne] at htls
  · intro p hp
    exact validateNetworkPortUpdate_ok (portUpdateLoop_ok hloop p hp)

theorem validateNetworkConnectionUpdate_immutable_witness :
    validateNetworkConnectionUpdate exNetConf exNetConf "service" = .ok () ∧
      (∀ otn ntn, mapGet exNetConn "tls-name" = some otn →
        mapGet exNetConn "tls-name" = some ntn → otn = ntn) :=
  ⟨by decide,
    (validateNetworkConnectionUpdate_immutable exNetConf exNetConf "service" exNetMap exNetMap
      exNetConn exNetConn (by decide) (by decide) (by decide) (by decide) (by decide)
      (by decide)).1⟩

theorem foldl_min_ge {b : Int} {l : List Int} (hb : 2 ≤ b) (hl : ∀ x ∈ l, 2 ≤ x) :
    2 ≤ l.foldl min b := by
  induction l generalizing b with
  | nil => exact hb
  | cons x rest ih =>
    rw [List.foldl_cons]
    exact ih (le_min hb (hl x (List.mem_cons_self x rest)))
      (fun y hy => hl y (List.mem_cons_of_mem x hy))

theorem muNsLoop_eq {l : List CVal} {b : Int} (hwf : l.all wfRFNs = true) (hb : 2 ≤ b) :
    muNsLoop l b = .ok ((nsEffRFs l).foldl min b) := by
  induction l generalizing b with
  | nil => rw [muNsLoop]; rfl
  | cons v rest ih =>
    rw [List.all_cons, Bool.and_eq_true] at hwf
    obtain ⟨hv, hrest⟩ := hwf
    cases v with
    | m nsConf =>
      rw [muNsLoop]
      simp only [asMap, Res.monadBind_eq, Res.bind_ok]
      rw [wfRFNs] at hv
      cases hrf : mapGet nsConf "replication-factor" with
      | none =>
        have h2 : nsEffRFs (CVal.m nsConf :: rest) = 2 :: nsEffRFs rest := by
          simp [nsEffRFs, effRF, hrf]
        rw [h2, List.foldl_cons, min_eq_right hb]
        exact ih hrest (le_refl 2)
      | some rfv =>
        rw [hrf] at hv
        cases rfv with
        | i n =>
          have hn1 : 1 ≤ n := by simpa using hv
          simp only [GetIntType]
          by_cases hn : n = 1
          · have h2 : nsEffRFs (CVal.m nsConf :: rest) = nsEffRFs rest := by
              simp [nsEffRFs, effRF, hrf, hn]
            rw [h2, if_pos hn]
            exact ih hrest hb
          · have hn2 : 2 ≤ n := by omega
            have h2 : nsEffRFs (CVal.m nsConf :: rest) = n :: nsEffRFs rest := by
              simp [nsEffRFs, effRF, hrf, hn]
            rw [h2, List.foldl_cons, if_neg hn]
            by_cases hlt : n < b
            · rw [if_pos hlt, min_eq_right (le_of_lt hlt)]
              exact ih hrest hn2
            · rw [if_neg hlt, min_eq_left (le_of_not_lt hlt)]
              exact ih hrest hb
        | s a => simp at hv
        | b a => simp at hv
        | lst a => simp at hv
        | m a => simp at hv
    | s a => simp [wfRFNs] at hv
    | i a => simp [wfRFNs] at hv
    | b a => simp [wfRFNs] at hv
    | lst a => simp [wfRFNs] at hv

theorem nsEffRFs_ge {l : List CVal} (hwf : l.all wfRFNs = true) :
    ∀ x ∈ nsEffRFs l, 2 ≤ x := by
  induction l with
  | nil => intro x hx; cases hx
  | cons v rest ih =>
    rw [List.all_cons, Bool.and_eq_true] at hwf
    obtain ⟨hv, hrest⟩ := hwf
    intro x hx
    cases v with
    | m nsConf =>
      rw [wfRFNs] at hv
      cases hrf : mapGet nsConf "replication-factor" with
      | none =>
        rw [show nsEffRFs (CVal.m nsConf :: rest) = 2 :: nsEffRFs rest by
          simp [nsEffRFs, effRF, hrf]] at hx
        rcases List.mem_cons.mp hx with h0 | hr
        · omega
        · exact ih hrest x hr
      | some rfv =>
        rw [hrf] at hv
        cases rfv with
        | i n =>
          have hn1 : 1 ≤ n := by simpa using hv
          by_cases hn : n = 1
          · rw [show nsEffRFs (CVal.m nsConf :: rest) = nsEffRFs rest by
              simp [nsEffRFs, effRF, hrf, hn]] at hx
            exact ih hrest x hx
          · rw [show nsEffRFs (CVal.m nsConf :: rest) = n :: nsEffRFs rest by
              simp [nsEffRFs, effRF, hrf, hn]] at hx
            rcases List.mem_cons.mp hx with h0 | hr
            · omega
            · exact ih hrest x hr
        | s a => simp at hv
        | b a => simp at hv
        | lst a => simp at hv
        | m a => simp at hv
    | s a => simp [wfRFNs] at hv
    | i a => simp [wfRFNs] at hv
    | b a => simp [wfRFNs] at hv
    | lst a => simp [wfRFNs] at hv

theorem muRackLoop_eq {racks : List Rack} {b : Int}
    (hwf : racks.all wfRFRack = true) (hb : 2 ≤ b) :
    muRackLoop racks b = .ok (((racks.map rackEffRFs).flatten).foldl min b) := by
  induction racks generalizing b with
  | nil => rw [muRackLoop]; rfl
  | cons rack rest ih =>
    rw [List.all_cons, Bool.and_eq_true] at hwf
    obtain ⟨hrack, hrest⟩ := hwf
    rw [wfRFRack] at hrack
    cases hns : mapGet rack.aerospikeConfig "namespaces" with
    | none => rw [hns] at hrack; exact absurd hrack (by simp)
    | some v =>
      rw [hns] at hrack
      cases v with
      | lst l =>
        rw [muRackLoop, hns]
        simp only [asList, Res.monadBind_eq, Res.bind_ok]
        rw [muNsLoop_eq hrack hb]
        simp only [Res.bind_ok]
        have hb2 : 2 ≤ (nsEffRFs l).foldl min b :=
          foldl_min_ge hb (nsEffRFs_ge hrack)
        rw [ih hrest hb2]
        have hre : rackEffRFs rack = nsEffRFs l := by
          rw [rackEffRFs, hns]
        rw [show (List.map rackEffRFs (rack :: rest)).flatten =
          rackEffRFs rack ++ (List.map rackEffRFs rest).flatten from rfl]
        rw [List.foldl_append, hre]
      | s a => exact absurd hrack (by simp)
      | i a => exact absurd hrack (by simp)
      | b a => exact absurd hrack (by simp)
      | m a => exact absurd hrack (by simp)

theorem lookupA_upsert_self {α : Type} (acc : List (String × α)) (k : String) (v : α) :
    lookupA (upsert acc k v) k = some v := by
  induction acc with
  | nil => simp [upsert, lookupA]
  | cons kv rest ih =>
    obtain ⟨k1, v1⟩ := kv
    by_cases hk : k1 = k
    · simp [upsert, hk, lookupA]
    · simp [upsert, hk, lookupA, ih]

theorem lookupA_upsert_ne {α : Type} (acc : List (String × α)) (k k2 : String) (v : α)
    (hne : k2 ≠ k) : lookupA (upsert acc k v) k2 = lookupA acc k2 := by
  have hne2 : ¬(k = k2) := fun hh => hne hh.symm
  induction acc with
  | nil => simp [upsert, lookupA, hne2]
  | cons kv rest ih =>
    obtain ⟨k1, v1⟩ := kv
    by_cases hk : k1 = k
    · rw [upsert, if_pos hk, lookupA, lookupA, hk, if_neg hne2, if_neg hne2]
    · rw [upsert, if_neg hk, lookupA, lookupA]
      by_cases hk2 : k1 = k2
      · rw [if_pos hk2, if_pos hk2]
      · rw [if_neg hk2, if_neg hk2, ih]

theorem lookupA_mem {α : Type} {acc : List (String × α)} {k : String} {v : α}
    (h : lookupA acc k = some v) : (k, v) ∈ acc := by
  induction acc with
  | nil => simp [lookupA] at h
  | cons kv rest ih =>
    obtain ⟨k1, v1⟩ := kv
    rw [lookupA] at h
    by_cases hk : k1 = k
    · rw [if_pos hk] at h
      have hv : v1 = v := by injection h
      rw [← hk, ← hv]
      exact List.mem_cons_self _ _
    · rw [if_neg hk] at h
      exact List.mem_cons_of_mem _ (ih h)

/-- Decomposition of one step of the namespace loop of
`getNsConfForNamespaces`. -/
theorem nsConfFoldNsList_cons_ok {v : CVal} {rest : List CVal}
    {acc acc2 : List (String × NsConf)}
    (h : nsConfFoldNsList (v :: rest) acc = .ok acc2) :
    ∃ nsMap nsName sc,
      v = CVal.m nsMap ∧
      mapGet nsMap "name" = some (.s nsName) ∧
      IsNSSCEnabled nsMap = .ok sc ∧
      nsConfFoldNsList rest
        (upsert acc nsName
          ⟨(match lookupA acc nsName with
            | none => 1
            | some prev => prev.noOfRacksForNamespaces + 1), rfOfNs nsMap, sc⟩) = .ok acc2 := by
  rw [nsConfFoldNsList] at h
  cases v with
  | m nsMap =>
    simp only [asMap, Res.monadBind_eq, Res.bind_ok] at h
    cases hname : mapGet nsMap "name" with
    | none => rw [hname] at h; simp [asString] at h
    | some nv =>
      rw [hname] at h
      cases nv with
      | s nsName =>
        simp only [asString, Res.bind_ok] at h
        rcases Res.bind_eq_ok.mp h with ⟨sc, hsc, hrec⟩
        exact ⟨nsMap, nsName, sc, rfl, hname, hsc, hrec⟩
      | i a => simp [asString] at h
      | b a => simp [asString] at h
      | lst a => simp [asString] at h
      | m a => simp [asString] at h
  | s a => simp [asMap] at h
  | i a => simp [asMap] at h
  | b a => simp [asMap] at h
  | lst a => simp [asMap] at h

/-- Decomposition of one step of the rack loop of `getNsConfForNamespaces`. -/
theorem nsConfFoldRacks_cons_ok {rack : Rack} {rest : List Rack}
    {acc acc2 : List (String × NsConf)}
    (h : nsConfFoldRacks (rack :: rest) acc = .ok acc2) :
    ∃ l acc1, mapGet rack.aerospikeConfig "namespaces" = some (.lst l) ∧
      nsConfFoldNsList l acc = .ok acc1 ∧ nsConfFoldRacks rest acc1 = .ok acc2 := by
  rw [nsConfFoldRacks] at h
  cases hns : mapGet rack.aerospikeConfig "namespaces" with
  | none => rw [hns] at h; simp [asList] at h
  | some nv =>
    rw [hns] at h
    cases nv with
    | lst l =>
      simp only [asList, Res.monadBind_eq, Res.bind_ok] at h
      rcases Res.bind_eq_ok.mp h with ⟨acc1, hinner, houter⟩
      exact ⟨l, acc1, rfl, hinner, houter⟩
    | s a => simp [asList] at h
    | i a => simp [asList] at h
    | b a => simp [asList] at h
    | m a => simp [asList] at h

theorem nsConfFoldNsList_count {l : List CVal} {acc acc2 : List (String × NsConf)}
    (h : nsConfFoldNsList l acc = .ok acc2) (ns : String) :
    accCount acc2 ns = accCount acc ns + countNames l ns := by
  induction l generalizing acc with
  | nil =>
    rw [nsConfFoldNsList] at h
    have hacc : acc = acc2 := by injection h
    subst hacc
    simp [countNames]
  | cons v rest ih =>
    rcases nsConfFoldNsList_cons_ok h with ⟨nsMap, nsName, sc, hv, hname, hsc, hrec⟩
    have hnOf : nameOfNs v = some nsName := by
      rw [hv]; simp [nameOfNs, hname]
    have ihh := ih hrec
    have hcnV : (v :: rest).filterMap nameOfNs = nsName :: rest.filterMap nameOfNs := by
      rw [List.filterMap_cons, hnOf]
    by_cases hns : ns = nsName
    · subst hns
      rw [ihh]
      have h1 : accCount (upsert acc ns
          ⟨(match lookupA acc ns with
            | none => 1
            | some prev => prev.noOfRacksForNamespaces + 1), rfOfNs nsMap, sc⟩) ns
          = accCount acc ns + 1 := by
        rw [accCount, lookupA_upsert_self]
        cases hl : lookupA acc ns with
        | none => simp [accCount, hl]
        | some prev => simp [accCount, hl]
      rw [h1]
      have h2 : countNames (v :: rest) ns = countNames rest ns + 1 := by
        rw [countNames, countNames, hcnV, List.count_cons_self]
        push_cast
        ring
      rw [h2]
      omega
    · rw [ihh]
      have h1 : accCount (upsert acc nsName
          ⟨(match lookupA acc nsName with
            | none => 1
            | some prev => prev.noOfRacksForNamespaces + 1), rfOfNs nsMap, sc⟩) ns
          = accCount acc ns := by
        rw [accCount, lookupA_upsert_ne _ _ _ _ hns, accCount]
      rw [h1]
      have h2 : countNames (v :: rest) ns = countNames rest ns := by
        rw [countNames, countNames, hcnV, List.count_cons_of_ne hns]
      rw [h2]

theorem nsConfFoldNsList_presence {l : List CVal} {acc acc2 : List (String × NsConf)}
    (h : nsConfFoldNsList l acc = .ok acc2) (ns : String)
    (hp : (lookupA acc ns).isSome = true) : (lookupA acc2 ns).isSome = true := by
  induction l generalizing acc with
  | nil =>
    rw [nsConfFoldNsList] at h
    have hacc : acc = acc2 := by injection h
    subst hacc
    exact hp
  | cons v rest ih =>
    rcases nsConfFoldNsList_cons_ok h with ⟨nsMap, nsName, sc, hv, hname, hsc, hrec⟩
    refine ih hrec ?_
    by_cases hns : ns = nsName
    · subst hns; rw [lookupA_upsert_self]; rfl
    · rw [lookupA_upsert_ne _ _ _ _ hns]; exact hp

theorem nsConfFoldNsList_wf {l : List CVal} {acc acc2 : List (String × NsConf)}
    (h : nsConfFoldNsList l acc = .ok acc2) :
    ∀ v ∈ l, ∃ nsMap nsName, v = CVal.m nsMap ∧ nameOfNs v = some nsName := by
  induction l generalizing acc with
  | nil => intro v hv; cases hv
  | cons v0 rest ih =>
    rcases nsConfFoldNsList_cons_ok h with ⟨nsMap, nsName, sc, hv0, hname, hsc, hrec⟩
    intro v hv
    rcases List.mem_cons.mp hv with h0 | hr
    · refine ⟨nsMap, nsName, h0.trans hv0, ?_⟩
      rw [h0, hv0]; simp [nameOfNs, hname]
    · exact ih hrec v hr

theorem nsConfFoldNsList_domain {l : List CVal} {acc acc2 : List (String × NsConf)}
    (h : nsConfFoldNsList l acc = .ok acc2) :
    ∀ v ∈ l, ∀ ns, nameOfNs v = some ns → (lookupA acc2 ns).isSome = true := by
  induction l generalizing acc with
  | nil => intro v hv; cases hv
  | cons v0 rest ih =>
    rcases nsConfFoldNsList_cons_ok h with ⟨nsMap, nsName, sc, hv0, hname, hsc, hrec⟩
    intro v hv ns hnOf
    rcases List.mem_cons.mp hv with h0 | hr
    · have hnn : ns = nsName := by
        rw [h0, hv0] at hnOf
        simp [nameOfNs, hname] at hnOf
        exact hnOf.symm
      subst hnn
      exact nsConfFoldNsList_presence hrec ns (by rw [lookupA_upsert_self]; rfl)
    · exact ih hrec v hr ns hnOf

theorem nsConfFoldNsList_prov {l : List CVal} {acc acc2 : List (String × NsConf)}
    (h : nsConfFoldNsList l acc = .ok acc2) :
    ∀ ns nc, lookupA acc2 ns = some nc →
      lookupA acc ns = some nc ∨
      ∃ nsMap, CVal.m nsMap ∈ l ∧ nameOfNs (CVal.m nsMap) = some ns ∧
        nc.replicationFactor = rfOfNs nsMap ∧ nc.scEnabled = scOfNs nsMap := by
  induction l generalizing acc with
  | nil =>
    rw [nsConfFoldNsList] at h
    have hacc : acc = acc2 := by injection h
    subst hacc
    intro ns nc hlk
    exact Or.inl hlk
  | cons v0 rest ih =>
    rcases nsConfFoldNsList_cons_ok h with ⟨nsMap, nsName, sc, hv0, hname, hsc, hrec⟩
    intro ns nc hlk
    rcases ih hrec ns nc hlk with hleft | ⟨nsMap1, hm1, hn1, hrf1, hsc1⟩
    · by_cases hns : ns = nsName
      · subst hns
        rw [lookupA_upsert_self] at hleft
        have hnc : nc = ⟨(match lookupA acc ns with
            | none => 1
            | some prev => prev.noOfRacksForNamespaces + 1), rfOfNs nsMap, sc⟩ := by
          injection hleft.symm
        refine Or.inr ⟨nsMap, ?_, ?_, ?_, ?_⟩
        · rw [← hv0]; exact List.mem_cons_self _ _
        · simp [nameOfNs, hname]
        · rw [hnc]
        · rw [hnc]
          show sc = scOfNs nsMap
          rw [scOfNs, hsc]
      · rw [lookupA_upsert_ne _ _ _ _ hns] at hleft
        exact Or.inl hleft
    · exact Or.inr ⟨nsMap1, List.mem_cons_of_mem _ hm1, hn1, hrf1, hsc1⟩

theorem nsConfFoldRacks_count {R : List Rack} {acc acc2 : List (String × NsConf)}
    (h : nsConfFoldRacks R acc = .ok acc2) (ns : String) :
    accCount acc2 ns = accCount acc ns + totalCount R ns := by
  induction R generalizing acc with
  | nil =>
    rw [nsConfFoldRacks] at h
    have hacc : acc = acc2 := by injection h
    subst hacc
    simp [totalCount]
  | cons rack rest ih =>
    rcases nsConfFoldRacks_cons_ok h with ⟨l, acc1, hns, hinner, houter⟩
    have hrl : rackNsList rack = l := by rw [rackNsList, hns]
    rw [ih houter, nsConfFoldNsList_count hinner ns]
    rw [show totalCount (rack :: rest) ns =
      countNames (rackNsList rack) ns + totalCount rest ns from by simp [totalCount]]
    rw [hrl]
    omega

theorem nsConfFoldRacks_presence {R : List Rack} {acc acc2 : List (String × NsConf)}
    (h : nsConfFoldRacks R acc = .ok acc2) (ns : String)
    (hp : (lookupA acc ns).isSome = true) : (lookupA acc2 ns).isSome = true := by
  induction R generalizing acc with
  | nil =>
    rw [nsConfFoldRacks] at h
    have hacc : acc = acc2 := by injection h
    subst hacc
    exact hp
  | cons rack rest ih =>
    rcases nsConfFoldRacks_cons_ok h with ⟨l, acc1, hns, hinner, houter⟩
    exact ih houter (nsConfFoldNsList_presence hinner ns hp)

theorem nsConfFoldRacks_wf {R : List Rack} {acc acc2 : List (String × NsConf)}
    (h : nsConfFoldRacks R acc = .ok acc2) :
    ∀ rack ∈ R, ∀ v ∈ rackNsList rack,
      ∃ nsMap nsName, v = CVal.m nsMap ∧ nameOfNs v = some nsName := by
  induction R generalizing acc with
  | nil => intro rack hrack; cases hrack
  | cons rack0 rest ih =>
    rcases nsConfFoldRacks_cons_ok h with ⟨l, acc1, hns, hinner, houter⟩
    intro rack hrack v hv
    rcases List.mem_cons.mp hrack with h0 | hr
    · subst h0
      rw [rackNsList, hns] at hv
      exact nsConfFoldNsList_wf hinner v hv
    · exact ih houter rack hr v hv

theorem nsConfFoldRacks_domain {R : List Rack} {acc acc2 : List (String × NsConf)}
    (h : nsConfFoldRacks R acc = .ok acc2) :
    ∀ rack ∈ R, ∀ v ∈ rackNsList rack, ∀ ns, nameOfNs v = some ns →
      (lookupA acc2 ns).isSome = true := by
  induction R generalizing acc with
  | nil => intro rack hrack; cases hrack
  | cons rack0 rest ih =>
    rcases nsConfFoldRacks_cons_ok h with ⟨l, acc1, hns, hinner, houter⟩
    intro rack hrack v hv ns hnOf
    rcases List.mem_cons.mp hrack with h0 | hr
    · subst h0
      rw [rackNsList, hns] at hv
      exact nsConfFoldRacks_presence houter ns (nsConfFoldNsList_domain hinner v hv ns hnOf)
    · exact ih houter rack hr v hv ns hnOf

theorem nsConfFoldRacks_prov {R : List Rack} {acc acc2 : List (String × NsConf)}
    (h : nsConfFoldRacks R acc = .ok acc2) :
    ∀ ns nc, lookupA acc2 ns = some nc →
      lookupA acc ns = some nc ∨
      ∃ rack ∈ R, ∃ nsMap, CVal.m nsMap ∈ rackNsList rack ∧
        nameOfNs (CVal.m nsMap) = some ns ∧
        nc.replicationFactor = rfOfNs nsMap ∧ nc.scEnabled = scOfNs nsMap := by
  induction R generalizing acc with
  | nil =>
    rw [nsConfFoldRacks] at h
    have hacc : acc = acc2 := by injection h
    subst hacc
    intro ns nc hlk
    exact Or.inl hlk
  | cons rack0 rest ih =>
    rcases nsConfFoldRacks_cons_ok h with ⟨l, acc1, hns, hinner, houter⟩
    intro ns nc hlk
    rcases ih houter ns nc hlk with hleft | ⟨rack1, hr1, nsMap1, hm1, hn1, hrf1, hsc1⟩
    · rcases nsConfFoldNsList_prov hinner ns nc hleft with hacc | ⟨nsMap, hm, hn, hrf, hsc⟩
      · exact Or.inl hacc
      · refine Or.inr ⟨rack0, List.mem_cons_self _ _, nsMap, ?_, hn, hrf, hsc⟩
        rw [rackNsList, hns]; exact hm
    · exact Or.inr ⟨rack1, List.mem_cons_of_mem _ hr1, nsMap1, hm1, hn1, hrf1, hsc1⟩

theorem checkNsConfs_ok {fp : String} {nss : List String} {rolling : Bool}
    {m : List (String × NsConf)}
    (h : checkNsConfsForBatchSize fp nss rolling m = .ok ()) :
    ∀ p ∈ m, isNameExist nss p.1 = true ∧ 1 < p.2.noOfRacksForNamespaces ∧
      1 < p.2.replicationFactor ∧ (rolling = false → p.2.scEnabled = false) := by
  induction m with
  | nil => intro p hp; cases hp
  | cons q rest ih =>
    obtain ⟨ns, nc⟩ := q
    intro p hp
    rw [checkNsConfsForBatchSize] at h
    cases hex : isNameExist nss ns with
    | false => rw [hex] at h; simp at h
    | true =>
      rw [hex] at h
      simp only [Bool.not_true, Bool.false_eq_true, if_false] at h
      by_cases hcnt : nc.noOfRacksForNamespaces ≤ 1
      · rw [if_pos hcnt] at h; exact absurd h (by simp)
      · rw [if_neg hcnt] at h
        by_cases hrf : nc.replicationFactor ≤ 1
        · rw [if_pos hrf] at h; exact absurd h (by simp)
        · rw [if_neg hrf] at h
          cases hscb : (!rolling && nc.scEnabled) with
          | true => rw [hscb] at h; simp at h
          | false =>
            rw [hscb] at h
            simp only [Bool.false_eq_true, if_false] at h
            rcases List.mem_cons.mp hp with h0 | hr
            · subst h0
              dsimp only
              refine ⟨hex, by omega, by omega, ?_⟩
              intro hroll
              subst hroll
              simpa using hscb
            · exact ih h p hr

theorem totalCount_eq_filter {R : List Rack} {ns : String}
    (hnodup : ∀ r ∈ R, (nsNamesOfRack r).Nodup) :
    totalCount R ns = ((R.filter (fun r => decide (ns ∈ nsNamesOfRack r))).length : Int) := by
  induction R with
  | nil => simp [totalCount]
  | cons r rest ih =>
    have hcnt : countNames (rackNsList r) ns = if ns ∈ nsNamesOfRack r then 1 else 0 := by
      rw [countNames]
      by_cases hm : ns ∈ nsNamesOfRack r
      · rw [if_pos hm]
        have hone := List.count_eq_one_of_mem (hnodup r (List.mem_cons_self _ _)) hm
        rw [show (rackNsList r).filterMap nameOfNs = nsNamesOfRack r from rfl, hone]
        rfl
      · rw [if_neg hm]
        rw [show (rackNsList r).filterMap nameOfNs = nsNamesOfRack r from rfl,
          List.count_eq_zero_of_not_mem hm]
        rfl
    rw [show totalCount (r :: rest) ns =
      countNames (rackNsList r) ns + totalCount rest ns from by simp [totalCount]]
    rw [hcnt, ih (fun r2 hr2 => hnodup r2 (List.mem_cons_of_mem _ hr2))]
    rw [List.filter_cons]
    by_cases hm : ns ∈ nsNamesOfRack r
    · rw [if_pos hm, if_pos (by simpa using hm)]
      rw [List.length_cons]
      push_cast
      ring
    · rw [if_neg hm, if_neg (by simpa using hm)]
      ring

theorem nsConfigsConsistent_apply {rc : RackConfig} (hcons : nsConfigsConsistent rc = true)
    {r1 r2 : Rack} (h1 : r1 ∈ rc.racks) (h2 : r2 ∈ rc.racks)
    {m1 m2 : ConfMap} (hm1 : CVal.m m1 ∈ rackNsList r1) (hm2 : CVal.m m2 ∈ rackNsList r2)
    {ns : String} (hn1 : nameOfNs (CVal.m m1) = some ns) (hn2 : nameOfNs (CVal.m m2) = some ns) :
    rfOfNs m1 = rfOfNs m2 ∧ scOfNs m1 = scOfNs m2 := by
  rw [nsConfigsConsistent] at hcons
  simp only [List.all_eq_true] at hcons
  have hthis := hcons r1 h1 r2 h2 (CVal.m m1) hm1 (CVal.m m2) hm2
  have hthis2 : (if nameOfNs (CVal.m m1) = nameOfNs (CVal.m m2) ∧
      (nameOfNs (CVal.m m1)).isSome = true then
      decide (rfOfNs m1 = rfOfNs m2 ∧ scOfNs m1 = scOfNs m2)
    else true) = true := hthis
  rw [hn1, hn2] at hthis2
  simp at hthis2
  exact hthis2

/-- The rack-topology conditions enforced by `validateRacksForBatchSize`, read
back at the spec level (assuming per-rack namespace names are duplicate-free
and namespace configurations agree across racks). -/
theorem validateRacksForBatchSize_ok {fp : String} {rolling : Bool} {rc : RackConfig}
    (hnodup : ∀ r ∈ rc.racks, (nsNamesOfRack r).Nodup)
    (hcons : nsConfigsConsistent rc = true)
    (h : validateRacksForBatchSize fp rolling rc = .ok ()) :
    batchSafeTopology rc rolling := by
  rw [validateRacksForBatchSize] at h
  by_cases hlen : rc.racks.length < 2
  · rw [if_pos hlen] at h; exact absurd h (by simp)
  · rw [if_neg hlen] at h
    simp only [Res.monadBind_eq] at h
    rcases Res.bind_eq_ok.mp h with ⟨m, hm, hcheck⟩
    rw [getNsConfForNamespaces] at hm
    refine ⟨by omega, ?_⟩
    intro rack hrack v hv
    obtain ⟨nsMap, nsName, hveq, hnOf⟩ := nsConfFoldRacks_wf hm rack hrack v hv
    have hdom := nsConfFoldRacks_domain hm rack hrack v hv nsName hnOf
    cases hlk : lookupA m nsName with
    | none => rw [hlk] at hdom; simp at hdom
    | some nc =>
      have hmem := lookupA_mem hlk
      have hconds := checkNsConfs_ok hcheck _ hmem
      dsimp only at hconds
      have hcount := nsConfFoldRacks_count hm nsName
      have hcm : accCount m nsName = nc.noOfRacksForNamespaces := by rw [accCount, hlk]
      have hc0 : accCount ([] : List (String × NsConf)) nsName = 0 := rfl
      rcases nsConfFoldRacks_prov hm nsName nc hlk with hleft |
        ⟨rack0, hrack0, nsMap0, hmem0, hname0, hrf0, hsc0⟩
      · rw [lookupA] at hleft; exact absurd hleft (by simp)
      · have hmemv : CVal.m nsMap ∈ rackNsList rack := by rw [← hveq]; exact hv
        have hnOfm : nameOfNs (CVal.m nsMap) = some nsName := by rw [← hveq]; exact hnOf
        have hcc := nsConfigsConsistent_apply hcons hrack hrack0 hmemv hmem0 hnOfm hname0
        refine ⟨nsMap, nsName, hveq, hnOf, hconds.1, ?_, ?_, ?_⟩
        · have htc : totalCount rc.racks nsName = ((racksListing rc nsName : Nat) : Int) := by
            rw [totalCount_eq_filter hnodup]; rfl
          have h2 := hconds.2.1
          rw [hcm] at hcount
          rw [hc0] at hcount
          omega
        · have h3 := hconds.2.2.1
          rw [hrf0] at h3
          rw [hcc.1]
          exact h3
        · intro hroll
          have h4 := hconds.2.2.2 hroll
          rw [hsc0] at h4
          rw [hcc.2]
          exact h4

/-- C3: a batch size accepted by `validateBatchSize` certifies the spec-level
safety conditions on the incoming rack topology — at least two racks, every
namespace rack-enabled, listed in more than one rack, with replication factor
above 1 and (for scale-down) not strong-consistency enabled — and, whenever a
status exists, the same conditions on the status rack topology.  Hypotheses:
per-rack namespace names are duplicate-free and namespace configurations agree
across racks (both guaranteed upstream by the schema oracle). -/
theorem validateBatchSize_ok_conditions (c : AerospikeCluster) (bs : IntOrString)
    (rolling : Bool)
    (hnodup : ∀ r ∈ c.spec.rackConfig.racks, (nsNamesOfRack r).Nodup)
    (hcons : nsConfigsConsistent c.spec.rackConfig = true)
    (hnodupS : ∀ r ∈ c.status.rackConfig.racks, (nsNamesOfRack r).Nodup)
    (hconsS : nsConfigsConsistent c.status.rackConfig = true)
    (h : validateBatchSize c (some bs) rolling = .ok ()) :
    batchSafeTopology c.spec.rackConfig rolling ∧
      (c.status.aerospikeConfig ≠ none → batchSafeTopology c.status.rackConfig rolling) := by
  rw [validateBatchSize] at h
  simp only [Res.monadBind_eq] at h
  rcases Res.bind_eq_ok.mp h with ⟨u1, hfield, h2⟩
  rcases Res.bind_eq_ok.mp h2 with ⟨u2, hspec, h3⟩
  constructor
  · exact validateRacksForBatchSize_ok hnodup hcons hspec
  · intro hst
    cases hsa : c.status.aerospikeConfig with
    | none => exact absurd hsa hst
    | some stc =>
      rw [hsa] at h3
      cases hstat : validateRacksForBatchSize
          (if rolling then "spec.rackConfig.rollingUpdateBatchSize"
           else "spec.rackConfig.scaleDownBatchSize") rolling c.status.rackConfig with
      | ok u => cases u; exact validateRacksForBatchSize_ok hnodupS hconsS hstat
      | err e => rw [hstat] at h3; exact absurd h3 (by simp)
      | panics e => rw [hstat] at h3; exact absurd h3 (by simp)

theorem validateBatchSize_ok_conditions_witness :
    validateBatchSize exClusterBatch (some (.int 1)) true = .ok () ∧
      batchSafeTopology exClusterBatch.spec.rackConfig true :=
  ⟨by decide,
    (validateBatchSize_ok_conditions exClusterBatch (.int 1) true (by decide) (by decide)
      (by decide) (by decide) (by decide)).1⟩

/-- C2 (amended): with disruption-budget management enabled, an
integer-valued, non-negative `maxUnavailable`, a positive cluster size, and
every explicitly-set replication factor at least 1, `validateMaxUnavailable`
skips the bound check entirely when the size is 1, and otherwise rejects
exactly when the requested value reaches the bound
`specSafeBound` = min(cluster size, replication factors across all namespaces
in all racks, absent factors counting as 2, factor-1 namespaces excluded),
with the computed bound carried in the rejection message
(`maxUnavailableErrMsg`).  (The at-least-1 proviso is forced: an absent
replication-factor resets the running bound to 2 instead of taking a minimum,
so a factor-0 namespace seen earlier is forgotten.) -/
theorem validateMaxUnavailable_bound (c : AerospikeCluster) (k : Int)
    (hpdb : GetBool c.spec.disablePDB = false)
    (hmu : c.spec.maxUnavailable = some (.int k))
    (hk : 0 ≤ k)
    (hsz : 1 ≤ c.spec.size)
    (hwf : c.spec.rackConfig.racks.all wfRFRack = true) :
    validateMaxUnavailable c =
      ([], if (c.spec.size : Int) = 1 then .ok ()
           else if specSafeBound c ≤ k then
             .err (maxUnavailableErrMsg (.int k) (specSafeBound c))
           else .ok ()) := by
  rw [validateMaxUnavailable, hpdb]
  simp only [Bool.false_eq_true, if_false]
  refine congrArg (Prod.mk []) ?_
  rw [hmu]
  rw [show validateIntOrStringField (some (.int k)) "spec.maxUnavailable" = .ok () by
    rw [validateIntOrStringField]
    simp only [getScaledValueFromIntOrPercent, Res.monadBind_eq, Res.bind_ok]
    rw [if_neg (by omega), if_neg (by simp [isStringType])]]
  simp only [Res.monadBind_eq, Res.bind_ok]
  by_cases h1 : (c.spec.size : Int) = 1
  · rw [if_pos h1, if_pos h1]
  · rw [if_neg h1, if_neg h1]
    have hb2 : 2 ≤ (c.spec.size : Int) := by
      have : (1 : Int) ≤ (c.spec.size : Int) := by exact_mod_cast hsz
      omega
    rw [muRackLoop_eq hwf hb2]
    simp only [Res.bind_ok, IntOrString.intValue, ge_iff_le, specSafeBound]

theorem validateMaxUnavailable_bound_witness :
    specSafeBound (exCluster5mu 2) = 2 ∧
      validateMaxUnavailable (exCluster5mu 2) = ([], .err (maxUnavailableErrMsg (.int 2) 2)) ∧
      validateMaxUnavailable (exCluster5mu 1) = ([], .ok ()) := by
  refine ⟨by decide, ?_, ?_⟩
  · rw [validateMaxUnavailable_bound (exCluster5mu 2) 2 rfl rfl (by decide) (by decide)
      (by decide)]
    decide
  · rw [validateMaxUnavailable_bound (exCluster5mu 1) 1 rfl rfl (by decide) (by decide)
      (by decide)]
    decide

/-- C2 (counterexample to the claim as stated): on a size-5 cluster whose
namespaces carry replication factors {0, absent}, the claimed bound —
the minimum over all namespaces, absent counting as 2 — is 0, so the claim
rejects the request `maxUnavailable = 1` (1 ≥ 0); the code instead accepts it,
because the absent replication-factor *assigns* 2 to the running bound,
discarding the previously seen 0. -/
theorem validateMaxUnavailable_claim_counterexample :
    specSafeBound exClusterRF0 = 0 ∧
      exClusterRF0.spec.maxUnavailable = some (.int 1) ∧
      (1 : Int) ≥ specSafeBound exClusterRF0 ∧
      validateMaxUnavailable exClusterRF0 = ([], .ok ()) := by
  refine ⟨by decide, rfl, by decide, by decide⟩

theorem nsDeviceTokensLoop_ok {bl : List String} {storage : AerospikeStorageSpec}
    {toks : List String} (h : nsDeviceTokensLoop bl storage toks = .ok ()) :
    ∀ dev ∈ toks, ContainsString bl dev = true := by
  induction toks with
  | nil => intro dev hdev; cases hdev
  | cons tk rest ih =>
    intro dev hdev
    rw [nsDeviceTokensLoop] at h
    cases hc : ContainsString bl tk with
    | false => rw [hc] at h; simp at h
    | true =>
      rw [hc] at h
      simp only [Bool.not_true, Bool.false_eq_true, if_false] at h
      rcases List.mem_cons.mp hdev with h0 | hr
      · rw [h0]; exact hc
      · exact ih h dev hr

theorem nsDeviceEntriesLoop_ok {bl : List String} {storage : AerospikeStorageSpec}
    {devList : List CVal} (h : nsDeviceEntriesLoop bl storage devList = .ok ()) :
    ∀ entry : String, CVal.s entry ∈ devList →
      nsDeviceTokensLoop bl storage (stringsFields (stringsTrim entry)) = .ok () := by
  induction devList with
  | nil => intro entry hentry; cases hentry
  | cons dI rest ih =>
    intro entry hentry
    cases dI with
    | s devRaw =>
      rw [nsDeviceEntriesLoop] at h
      by_cases hlen : 2 < (stringsFields (stringsTrim devRaw)).length
      · rw [if_pos (by simpa using hlen)] at h
        exact absurd h (by simp)
      · rw [if_neg (by simpa using hlen)] at h
        simp only [Res.monadBind_eq] at h
        rcases Res.bind_eq_ok.mp h with ⟨u, htoks, hrest⟩
        rcases List.mem_cons.mp hentry with h0 | hr
        · have : entry = devRaw := by
            have := h0; simp only [CVal.s.injEq] at this; exact this
          rw [this]; cases u; exact htoks
        · exact ih hrest entry hr
    | i v => simp [nsDeviceEntriesLoop] at h
    | b v => simp [nsDeviceEntriesLoop] at h
    | lst v => simp [nsDeviceEntriesLoop] at h
    | m v => simp [nsDeviceEntriesLoop] at h

theorem nsStorageEngineCheck_devices_ok {nsMap seMap : ConfMap} {devList : List CVal}
    {bl fl : List String} {storage : AerospikeStorageSpec}
    (hse : mapGet nsMap "storage-engine" = some (.m seMap))
    (htype : mapGet seMap "type" = some (.s "device") ∨ mapGet seMap "type" = some (.s "pmem"))
    (hdevs : mapGet seMap "devices" = some (.lst devList))
    (h : nsStorageEngineCheck nsMap bl fl storage = .ok ()) :
    nsDeviceEntriesLoop bl storage devList = .ok () := by
  rw [nsStorageEngineCheck, hse] at h
  have hmem : isInMemoryNamespace nsMap = .ok false := by
    rw [isInMemoryNamespace, hse]
    simp only [asMap, Res.monadBind_eq, Res.bind_ok, Res.pure_eq]
    rcases htype with ht | ht <;> simp [ht]
  have hdev : isDeviceOrPmemNamespace nsMap = .ok true := by
    rw [isDeviceOrPmemNamespace, hse]
    simp only [asMap, Res.monadBind_eq, Res.bind_ok, Res.pure_eq]
    rcases htype with ht | ht <;> simp [ht]
  rw [hmem] at h
  simp only [Res.monadBind_eq, Res.bind_ok, Bool.false_eq_true, if_false] at h
  rw [hdev] at h
  simp only [Res.bind_ok, Bool.not_true, Bool.false_eq_true, if_false] at h
  simp only [asMap, Res.bind_ok] at h
  rw [hdevs, devicesBranch] at h
  rcases Res.bind_eq_ok.mp h with ⟨u, hdevsok, _⟩
  cases u
  by_cases hnil : devList.length = 0
  · rw [if_pos hnil] at hdevsok
    exact absurd hdevsok (by simp)
  · rw [if_neg hnil] at hdevsok
    exact hdevsok

theorem nsConfMainLoop_ok {bl fl : List String} {storage : AerospikeStorageSpec}
    {clSize : Int} {l : List CVal}
    (h : nsConfMainLoop bl fl storage clSize l = .ok ()) :
    ∀ nsMap : ConfMap, CVal.m nsMap ∈ l →
      nsStorageEngineCheck nsMap bl fl storage = .ok () := by
  induction l with
  | nil => intro nsMap hns; cases hns
  | cons v rest ih =>
    intro nsMap hns
    cases v with
    | m nsc =>
      rw [nsConfMainLoop] at h
      simp only [Res.monadBind_eq] at h
      rcases Res.bind_eq_ok.mp h with ⟨u1, hrf, h2⟩
      rcases Res.bind_eq_ok.mp h2 with ⟨u2, hmrt, h3⟩
      rcases Res.bind_eq_ok.mp h3 with ⟨u3, hchk, h4⟩
      rcases List.mem_cons.mp hns with h0 | hr
      · have : nsMap = nsc := by
          have := h0; simp only [CVal.m.injEq] at this; exact this
        rw [this]; cases u3; exact hchk
      · exact ih h4 nsMap hr
    | s v2 => simp [nsConfMainLoop] at h
    | i v2 => simp [nsConfMainLoop] at h
    | b v2 => simp [nsConfMainLoop] at h
    | lst v2 => simp [nsConfMainLoop] at h

/-- C7 (amended): a descriptor with a device/pmem namespace whose device entry
has a whitespace-separated token not present in the declared block-storage
device paths is rejected by `validateNamespaceConfig`; the rejection message
raised for that token, `deviceNotFoundMsg`, names the offending device path
and the storage config — but not the namespace. -/
theorem validateNamespaceConfig_rejects_unknown_device
    (nsList : List CVal) (storage : AerospikeStorageSpec) (clSize : Int)
    (nsMap seMap : ConfMap) (devList : List CVal) (entry dev : String)
    (hns : CVal.m nsMap ∈ nsList)
    (hse : mapGet nsMap "storage-engine" = some (.m seMap))
    (htype : mapGet seMap "type" = some (.s "device") ∨ mapGet seMap "type" = some (.s "pmem"))
    (hdevs : mapGet seMap "devices" = some (.lst devList))
    (hentry : CVal.s entry ∈ devList)
    (htok : dev ∈ stringsFields (stringsTrim entry))
    (hnotin : ContainsString (getAerospikeStorageList storage true).1 dev = false) :
    validateNamespaceConfig nsList storage clSize ≠ .ok () := by
  intro hok
  rw [validateNamespaceConfig] at hok
  have hlen : ¬nsList.length = 0 := by
    intro h0
    rw [if_pos h0] at hok
    exact Res.noConfusion hok
  rw [if_neg hlen] at hok
  simp only [Res.monadBind_eq] at hok
  rcases Res.bind_eq_ok.mp hok with ⟨u1, hmain, _⟩
  cases u1
  have hchk := nsConfMainLoop_ok hmain nsMap hns
  have hdevok := nsStorageEngineCheck_devices_ok hse htype hdevs hchk
  have htoks := nsDeviceEntriesLoop_ok hdevok entry hentry
  have hcov := nsDeviceTokensLoop_ok htoks dev htok
  rw [hcov] at hnotin
  exact Bool.noConfusion hnotin

theorem validateNamespaceConfig_rejects_unknown_device_witness :
    CVal.m exNsBadDevMap ∈ exNsBadList ∧
      ContainsString (getAerospikeStorageList exStorageVol true).1 "/dev/bad" = false ∧
      validateNamespaceConfig exNsBadList exStorageVol 2 ≠ .ok () :=
  ⟨by decide, by decide,
    validateNamespaceConfig_rejects_unknown_device exNsBadList exStorageVol 2
      exNsBadDevMap [("type", .s "device"), ("devices", .lst [.s "/dev/bad"])]
      [.s "/dev/bad"] "/dev/bad" "/dev/bad"
      (by decide) (by decide) (Or.inl (by decide)) (by decide) (by decide) (by decide)
      (by decide)⟩

/-- C7 (counterexample to the claim as stated): on a concrete descriptor the
undeclared device path `/dev/bad` of namespace `userdata` is rejected, and the
rejection message contains the offending path but does **not** contain the
namespace name — the claim that the message names both is false. -/
theorem validateNamespaceConfig_message_counterexample :
    validateNamespaceConfig exNsBadList exStorageVol 2 =
      .err (deviceNotFoundMsg "/dev/bad" exStorageVol) ∧
      strContains (deviceNotFoundMsg "/dev/bad" exStorageVol) "/dev/bad" = true ∧
      strContains (deviceNotFoundMsg "/dev/bad" exStorageVol) "userdata" = false := by
  refine ⟨by decide, by decide, by decide⟩

/-- C10 (counterexample to the claim as stated): a tree that passes the full
structural validation (`validateAerospikeConfig`, which requires only
`network.service` among the connection sections) makes
`validateAerospikeConfigUpdate` — via `validateNetworkConnectionUpdate` — hit
a failing type assertion on the absent `network.heartbeat` section, even with
the tree unchanged: the function is not total on structurally valid trees. -/
theorem validateAerospikeConfigUpdate_not_total_counterexample :
    validateAerospikeConfig none exStructConf exStorageEmpty 2 = .ok () ∧
      validateAerospikeConfigUpdate exStructConf exStructConf none =
        .panics "interface conversion: not map[string]interface{}" := by
  refine ⟨by decide, by decide⟩

@[simp] theorem Res.isPanics_ok {α : Type} (a : α) : (Res.ok a).isPanics = false := rfl

@[simp] theorem Res.isPanics_err {α : Type} (e : String) :
    (Res.err e : Res α).isPanics = false := rfl

@[simp] theorem Res.isPanics_panics {α : Type} (e : String) :
    (Res.panics e : Res α).isPanics = true := rfl

theorem Res.bind_no_panics {α β : Type} {x : Res α} {f : α → Res β}
    (hx : x.isPanics = false) (hf : ∀ a, (f a).isPanics = false) :
    (Res.bind x f).isPanics = false := by
  cases x with
  | ok a => exact hf a
  | err e => rfl
  | panics e => exact absurd hx (by simp)

theorem IsSecurityEnabled_no_panics (conf : ConfMap) :
    (IsSecurityEnabled conf).isPanics = false := by
  rw [IsSecurityEnabled]
  split <;> rfl

theorem validateSecurityContext_no_panics (newSpec oldSpec : ConfMap) :
    (validateSecurityContext newSpec oldSpec).isPanics = false := by
  rw [validateSecurityContext]
  simp only [Res.monadBind_eq]
  refine Res.bind_no_panics ?_ (fun ov => ?_)
  · cases h1 : IsSecurityEnabled oldSpec with
    | ok v => rfl
    | err e => rfl
    | panics p =>
      have hnp := IsSecurityEnabled_no_panics oldSpec
      rw [h1] at hnp
      simp at hnp
  · refine Res.bind_no_panics ?_ (fun iv => ?_)
    · cases h2 : IsSecurityEnabled newSpec with
      | ok v => rfl
      | err e => rfl
      | panics p =>
        have hnp := IsSecurityEnabled_no_panics newSpec
        rw [h2] at hnp
        simp at hnp
    · split <;> rfl

theorem validateSecurityConfigUpdate_no_panics (newSpec oldSpec : ConfMap)
    (st : Option ConfMap) :
    (validateSecurityConfigUpdate newSpec oldSpec st).isPanics = false := by
  cases st with
  | none =>
    rw [validateSecurityConfigUpdate]
    simp only [Res.monadBind_eq]
    exact Res.bind_no_panics (by rfl) (fun u => validateSecurityContext_no_panics _ _)
  | some stc =>
    rw [validateSecurityConfigUpdate]
    simp only [Res.monadBind_eq]
    refine Res.bind_no_panics ?_ (fun u => validateSecurityContext_no_panics _ _)
    refine Res.bind_no_panics (IsSecurityEnabled_no_panics stc) (fun cur => ?_)
    refine Res.bind_no_panics (IsSecurityEnabled_no_panics newSpec) (fun des => ?_)
    split <;> rfl

theorem caMapInsert_no_panics {name : String} {capMap : List (String × String)}
    {o : Option CVal}
    (hwf : (match o with
            | none => true
            | some (.s _) => true
            | some _ => false) = true) :
    (caMapInsert name capMap o).isPanics = false := by
  cases o with
  | none => rfl
  | some v =>
    cases v with
    | s st => rfl
    | i a => simp at hwf
    | b a => simp at hwf
    | lst a => simp at hwf
    | m a => simp at hwf

theorem usedTLSNamesLoop_no_panics {netMap : ConfMap} {types acc : List String}
    (hwf : ∀ t ∈ types, ∀ v, mapGet netMap t = some v → wfConnSection v = true) :
    (usedTLSNamesLoop netMap types acc).isPanics = false := by
  induction types generalizing acc with
  | nil => rfl
  | cons t rest ih =>
    have ihr : ∀ acc2 : List String, (usedTLSNamesLoop netMap rest acc2).isPanics = false :=
      fun acc2 => ih (fun t2 ht2 => hwf t2 (List.mem_cons_of_mem _ ht2))
    rw [usedTLSNamesLoop]
    cases hm : mapGet netMap t with
    | none => exact ihr acc
    | some connI =>
      have hwfc := hwf t (List.mem_cons_self _ _) connI hm
      cases connI with
      | m cm =>
        simp only [asMap, Res.monadBind_eq, Res.bind_ok]
        cases htn : mapGet cm "tls-name" with
        | none => exact ihr acc
        | some tn =>
          rw [wfConnSection, htn] at hwfc
          cases tn with
          | s st => exact ihr (acc ++ [st])
          | i a => simp at hwfc
          | b a => simp at hwfc
          | lst a => simp at hwfc
          | m a => simp at hwfc
      | s a => simp [wfConnSection] at hwfc
      | i a => simp [wfConnSection] at hwfc
      | b a => simp [wfConnSection] at hwfc
      | lst a => simp [wfConnSection] at hwfc

theorem oldCAMapsLoop_no_panics {used : List String} {l : List CVal}
    {maps : List (String × String) × List (String × String)}
    (hwf : ∀ v ∈ l, wfTLSEntry v = true) :
    (oldCAMapsLoop used l maps).isPanics = false := by
  induction l generalizing maps with
  | nil => rfl
  | cons tlsI rest ih =>
    have ihr : ∀ maps2, (oldCAMapsLoop used rest maps2).isPanics = false :=
      fun maps2 => ih (fun v hv => hwf v (List.mem_cons_of_mem _ hv))
    obtain ⟨fileMap, pathMap⟩ := maps
    have hwfe := hwf tlsI (List.mem_cons_self _ _)
    cases tlsI with
    | m tm =>
      rw [wfTLSEntry] at hwfe
      simp only [Bool.and_eq_true] at hwfe
      obtain ⟨⟨hn, hcf⟩, hcp⟩ := hwfe
      rw [oldCAMapsLoop]
      simp only [asMap, Res.monadBind_eq, Res.bind_ok]
      cases hname : mapGet tm "name" with
      | none => rw [hname] at hn; simp at hn
      | some nv =>
        rw [hname] at hn
        cases nv with
        | s name =>
          simp only [asString, Res.bind_ok]
          by_cases hu : used.contains name
          · rw [if_neg (by simp_all)]
            refine Res.bind_no_panics (caMapInsert_no_panics hcf) (fun fm2 => ?_)
            refine Res.bind_no_panics (caMapInsert_no_panics hcp) (fun pm2 => ?_)
            exact ihr _
          · rw [if_pos (by simp_all)]
            exact ihr _
        | i a => simp at hn
        | b a => simp at hn
        | lst a => simp at hn
        | m a => simp at hn
    | s a => simp [wfTLSEntry] at hwfe
    | i a => simp [wfTLSEntry] at hwfe
    | b a => simp [wfTLSEntry] at hwfe
    | lst a => simp [wfTLSEntry] at hwfe

theorem newTLSCheckLoop_no_panics {used : List String}
    {oldFileMap oldPathMap : List (String × String)} {l : List CVal}
    (hwf : ∀ v ∈ l, wfTLSEntry v = true) :
    (newTLSCheckLoop used oldFileMap oldPathMap l).isPanics = false := by
  induction l with
  | nil => rfl
  | cons tlsI rest ih =>
    have ihr : (newTLSCheckLoop used oldFileMap oldPathMap rest).isPanics = false :=
      ih (fun v hv => hwf v (List.mem_cons_of_mem _ hv))
    have hwfe := hwf tlsI (List.mem_cons_self _ _)
    cases tlsI with
    | m tm =>
      rw [wfTLSEntry] at hwfe
      simp only [Bool.and_eq_true] at hwfe
      obtain ⟨⟨hn, hcf⟩, hcp⟩ := hwfe
      rw [newTLSCheckLoop]
      simp only [asMap, Res.monadBind_eq, Res.bind_ok]
      cases hname : mapGet tm "name" with
      | none => rw [hname] at hn; simp at hn
      | some nv =>
        rw [hname] at hn
        cases nv with
        | s name =>
          simp only [asString, Res.bind_ok]
          by_cases hu : used.contains name
          · rw [if_neg (by simp_all)]
            split
            · rfl
            · split
              · rename_i ocf ncf heq1 heq2
                rw [heq2] at hcf
                cases ncf with
                | s st =>
                  simp only [asString, Res.monadBind_eq, Res.bind_ok]
                  split
                  · rfl
                  · exact ihr
                | i a => simp at hcf
                | b a => simp at hcf
                | lst a => simp at hcf
                | m a => simp at hcf
              · exact ihr
          · rw [if_pos (by simp_all)]
            exact ihr
        | i a => simp at hn
        | b a => simp at hn
        | lst a => simp at hn
        | m a => simp at hn
    | s a => simp [wfTLSEntry] at hwfe
    | i a => simp [wfTLSEntry] at hwfe
    | b a => simp [wfTLSEntry] at hwfe
    | lst a => simp [wfTLSEntry] at hwfe

theorem wfConnSection_map {v : CVal} (h : wfConnSection v = true) :
    ∃ cm, v = CVal.m cm ∧
      (match mapGet cm "tls-name" with
       | none => true
       | some (.s _) => true
       | some _ => false) = true := by
  cases v with
  | m cm => exact ⟨cm, rfl, h⟩
  | s a => simp [wfConnSection] at h
  | i a => simp [wfConnSection] at h
  | b a => simp [wfConnSection] at h
  | lst a => simp [wfConnSection] at h

theorem wfConf_network {conf : ConfMap} (h : wfConfForUpdate conf = true) :
    ∃ net, mapGet conf "network" = some (.m net) ∧
      (∀ t ∈ networkConnectionTypes, ∃ v, mapGet net t = some v ∧ wfConnSection v = true) ∧
      (∀ tlv, mapGet net "tls" = some tlv →
        ∃ tl, tlv = .lst tl ∧ ∀ v ∈ tl, wfTLSEntry v = true) := by
  rw [wfConfForUpdate] at h
  simp only [Bool.and_eq_true] at h
  obtain ⟨hnet, _⟩ := h
  cases hm : mapGet conf "network" with
  | none => rw [hm] at hnet; simp at hnet
  | some nv =>
    rw [hm] at hnet
    cases nv with
    | m net =>
      simp only [Bool.and_eq_true] at hnet
      obtain ⟨hsec, htls⟩ := hnet
      refine ⟨net, rfl, ?_, ?_⟩
      · intro t ht
        rw [List.all_eq_true] at hsec
        have := hsec t ht
        cases hmt : mapGet net t with
        | none => rw [hmt] at this; simp at this
        | some v => rw [hmt] at this; exact ⟨v, rfl, this⟩
      · intro tlv htlv
        rw [htlv] at htls
        cases tlv with
        | lst tl =>
          refine ⟨tl, rfl, ?_⟩
          rw [List.all_eq_true] at htls
          exact htls
        | s a => simp at htls
        | i a => simp at htls
        | b a => simp at htls
        | m a => simp at htls
    | s a => simp at hnet
    | i a => simp at hnet
    | b a => simp at hnet
    | lst a => simp at hnet

theorem wfConf_namespaces {conf : ConfMap} (h : wfConfForUpdate conf = true) :
    ∃ nl, mapGet conf "namespaces" = some (.lst nl) ∧ ∀ v ∈ nl, wfNsEntryUpd v = true := by
  rw [wfConfForUpdate] at h
  simp only [Bool.and_eq_true] at h
  obtain ⟨_, hns⟩ := h
  cases hm : mapGet conf "namespaces" with
  | none => rw [hm] at hns; simp at hns
  | some nv =>
    rw [hm] at hns
    cases nv with
    | lst nl =>
      refine ⟨nl, rfl, ?_⟩
      rw [List.all_eq_true] at hns
      exact hns
    | s a => simp at hns
    | i a => simp at hns
    | b a => simp at hns
    | m a => simp at hns

theorem validateTLSUpdate_no_panics {oldConf newConf : ConfMap}
    (hwfO : wfConfForUpdate oldConf = true) (hwfN : wfConfForUpdate newConf = true) :
    (validateTLSUpdate oldConf newConf).isPanics = false := by
  obtain ⟨oldNet, hON, hOsec, hOtls⟩ := wfConf_network hwfO
  obtain ⟨newNet, hNN, hNsec, hNtls⟩ := wfConf_network hwfN
  rw [validateTLSUpdate, hON, hNN]
  simp only [asMap, Res.monadBind_eq, Res.bind_ok]
  cases hOt : mapGet oldNet "tls" with
  | none => cases hNt : mapGet newNet "tls" <;> rfl
  | some oldTLS =>
    cases hNt : mapGet newNet "tls" with
    | none => rfl
    | some newTLS =>
      split
      · rename_i ot nt hot hnt
        have hot2 : oldTLS = ot := by injection hot
        have hnt2 : newTLS = nt := by injection hnt
        subst hot2
        subst hnt2
        split
        · refine Res.bind_no_panics (usedTLSNamesLoop_no_panics ?_) (fun newUsed => ?_)
          · intro t ht v hv
            obtain ⟨v0, hv0, hwf0⟩ := hNsec t ht
            rw [hv0] at hv
            have hvv : v0 = v := by injection hv
            rw [← hvv]
            exact hwf0
          refine Res.bind_no_panics (usedTLSNamesLoop_no_panics ?_) (fun oldUsed => ?_)
          · intro t ht v hv
            obtain ⟨v0, hv0, hwf0⟩ := hOsec t ht
            rw [hv0] at hv
            have hvv : v0 = v := by injection hv
            rw [← hvv]
            exact hwf0
          obtain ⟨otl, hotl, hotlwf⟩ := hOtls oldTLS hOt
          rw [hotl]
          simp only [asList, Res.bind_ok]
          refine Res.bind_no_panics (oldCAMapsLoop_no_panics hotlwf) (fun maps => ?_)
          obtain ⟨ntl, hntl, hntlwf⟩ := hNtls newTLS hNt
          rw [hntl]
          simp only [asList, Res.bind_ok]
          exact newTLSCheckLoop_no_panics hntlwf
        · rfl
      · rename_i hfalse
        exact (hfalse oldTLS newTLS rfl rfl).elim

theorem validateNetworkPortUpdate_no_panics (oldC newC : ConfMap) (p : String) :
    (validateNetworkPortUpdate oldC newC p).isPanics = false := by
  rw [validateNetworkPortUpdate]
  simp only [Res.monadBind_eq]
  refine Res.bind_no_panics ?_ (fun u1 => ?_)
  · split
    · split <;> rfl
    · rfl
  · refine Res.bind_no_panics ?_ (fun u2 => ?_)
    · split
      · split <;> rfl
      · rfl
    · split
      · split <;> rfl
      · rfl

theorem portUpdateLoop_no_panics (oldC newC : ConfMap) (l : List String) :
    (portUpdateLoop oldC newC l).isPanics = false := by
  induction l with
  | nil => rfl
  | cons p rest ih =>
    rw [portUpdateLoop]
    simp only [Res.monadBind_eq]
    exact Res.bind_no_panics (validateNetworkPortUpdate_no_panics oldC newC p) (fun u => ih)

theorem validateNetworkConnectionUpdate_no_panics {newConf oldConf : ConfMap} {t : String}
    {oldNet newNet oldC newC : ConfMap}
    (hON : mapGet oldConf "network" = some (.m oldNet))
    (hOC : mapGet oldNet t = some (.m oldC))
    (hNN : mapGet newConf "network" = some (.m newNet))
    (hNC : mapGet newNet t = some (.m newC)) :
    (validateNetworkConnectionUpdate newConf oldConf t).isPanics = false := by
  rw [validateNetworkConnectionUpdate, hON]
  simp only [asMap, Res.monadBind_eq, Res.bind_ok]
  rw [hOC]
  simp only [asMap, Res.bind_ok]
  rw [hNN]
  simp only [asMap, Res.bind_ok]
  rw [hNC]
  simp only [asMap, Res.bind_ok]
  refine Res.bind_no_panics ?_ (fun u1 => portUpdateLoop_no_panics _ _ _)
  split
  · split <;> rfl
  · rfl

theorem connectionTypesUpdateLoop_no_panics {newConf oldConf : ConfMap}
    {oldNet newNet : ConfMap} {types : List String}
    (hON : mapGet oldConf "network" = some (.m oldNet))
    (hNN : mapGet newConf "network" = some (.m newNet))
    (hOsec : ∀ t ∈ types, ∃ v, mapGet oldNet t = some v ∧ wfConnSection v = true)
    (hNsec : ∀ t ∈ types, ∃ v, mapGet newNet t = some v ∧ wfConnSection v = true) :
    (connectionTypesUpdateLoop newConf oldConf types).isPanics = false := by
  induction types with
  | nil => rfl
  | cons t rest ih =>
    rw [connectionTypesUpdateLoop]
    simp only [Res.monadBind_eq]
    obtain ⟨vo, hvo, hwfo⟩ := hOsec t (List.mem_cons_self _ _)
    obtain ⟨vn, hvn, hwfn⟩ := hNsec t (List.mem_cons_self _ _)
    obtain ⟨oldC, hoc, _⟩ := wfConnSection_map hwfo
    obtain ⟨newC, hnc, _⟩ := wfConnSection_map hwfn
    rw [hoc] at hvo
    rw [hnc] at hvn
    refine Res.bind_no_panics
      (validateNetworkConnectionUpdate_no_panics hON hvo hNN hvn) (fun u => ?_)
    exact ih (fun t2 ht2 => hOsec t2 (List.mem_cons_of_mem _ ht2))
      (fun t2 ht2 => hNsec t2 (List.mem_cons_of_mem _ ht2))

theorem wfNsEntryUpd_parts {v : CVal} (h : wfNsEntryUpd v = true) :
    ∃ nsConf name se, v = CVal.m nsConf ∧ mapGet nsConf "name" = some (.s name) ∧
      mapGet nsConf "storage-engine" = some (.m se) ∧
      (match mapGet se "devices" with
       | none => true
       | some (.lst dl) => dl.all (fun d => match d with | .s _ => true | _ => false)
       | some _ => false) = true ∧
      (match mapGet se "files" with
       | none => true
       | some (.lst fl) => fl.all (fun d => match d with | .s _ => true | _ => false)
       | some _ => false) = true := by
  cases v with
  | m nsConf =>
    rw [wfNsEntryUpd] at h
    simp only [Bool.and_eq_true] at h
    obtain ⟨hname, hse⟩ := h
    cases hn : mapGet nsConf "name" with
    | none => rw [hn] at hname; simp at hname
    | some nv =>
      rw [hn] at hname
      cases nv with
      | s name =>
        cases hs : mapGet nsConf "storage-engine" with
        | none => rw [hs] at hse; simp at hse
        | some sv =>
          rw [hs] at hse
          cases sv with
          | m se =>
            simp only [Bool.and_eq_true] at hse
            exact ⟨nsConf, name, se, rfl, hn, hs, hse.1, hse.2⟩
          | s a => simp at hse
          | i a => simp at hse
          | b a => simp at hse
          | lst a => simp at hse
      | i a => simp at hname
      | b a => simp at hname
      | lst a => simp at hname
      | m a => simp at hname
  | s a => simp [wfNsEntryUpd] at h
  | i a => simp [wfNsEntryUpd] at h
  | b a => simp [wfNsEntryUpd] at h
  | lst a => simp [wfNsEntryUpd] at h

theorem sedlDevices_no_panics {nsName : String} {devList : List CVal}
    (h : ∀ d ∈ devList, (match d with | CVal.s _ => true | _ => false) = true) :
    ∀ dl, (sedlDevices nsName devList dl).isPanics = false := by
  induction devList with
  | nil => intro dl; rfl
  | cons dI rest ih =>
    intro dl
    cases dI with
    | s s =>
      rw [sedlDevices]
      simp only [asString, Res.monadBind_eq, Res.bind_ok]
      split
      · rfl
      · exact ih (fun d hd => h d (List.mem_cons_of_mem _ hd)) _
    | i a => have := h _ (List.mem_cons_self _ _); simp at this
    | b a => have := h _ (List.mem_cons_self _ _); simp at this
    | lst a => have := h _ (List.mem_cons_self _ _); simp at this
    | m a => have := h _ (List.mem_cons_self _ _); simp at this

theorem sedlFiles_no_panics {nsName : String} {fList : List CVal}
    (h : ∀ d ∈ fList, (match d with | CVal.s _ => true | _ => false) = true) :
    ∀ fl, (sedlFiles nsName fList fl).isPanics = false := by
  induction fList with
  | nil => intro fl; rfl
  | cons fI rest ih =>
    intro fl
    cases fI with
    | s s =>
      rw [sedlFiles]
      simp only [asString, Res.monadBind_eq, Res.bind_ok]
      split
      · rfl
      · exact ih (fun d hd => h d (List.mem_cons_of_mem _ hd)) _
    | i a => have := h _ (List.mem_cons_self _ _); simp at this
    | b a => have := h _ (List.mem_cons_self _ _); simp at this
    | lst a => have := h _ (List.mem_cons_self _ _); simp at this
    | m a => have := h _ (List.mem_cons_self _ _); simp at this

theorem sedlDevBranch_no_panics {nsName : String} {dl : List (String × String)}
    {o : Option CVal}
    (h : (match o with
          | none => true
          | some (.lst l) => l.all (fun d => match d with | CVal.s _ => true | _ => false)
          | some _ => false) = true) :
    (sedlDevBranch nsName dl o).isPanics = false := by
  cases o with
  | none => rfl
  | some devs =>
    cases devs with
    | lst l =>
      rw [sedlDevBranch]
      simp only [asList, Res.monadBind_eq, Res.bind_ok]
      rw [List.all_eq_true] at h
      exact sedlDevices_no_panics h dl
    | s a => simp at h
    | i a => simp at h
    | b a => simp at h
    | m a => simp at h

theorem sedlFileBranch_no_panics {nsName : String} {fl : List (String × String)}
    {o : Option CVal}
    (h : (match o with
          | none => true
          | some (.lst l) => l.all (fun d => match d with | CVal.s _ => true | _ => false)
          | some _ => false) = true) :
    (sedlFileBranch nsName fl o).isPanics = false := by
  cases o with
  | none => rfl
  | some fs =>
    cases fs with
    | lst l =>
      rw [sedlFileBranch]
      simp only [asList, Res.monadBind_eq, Res.bind_ok]
      rw [List.all_eq_true] at h
      exact sedlFiles_no_panics h fl
    | s a => simp at h
    | i a => simp at h
    | b a => simp at h
    | m a => simp at h

theorem sedlLoop_no_panics {l : List CVal}
    (h : ∀ v ∈ l, wfNsEntryUpd v = true) :
    ∀ maps, (sedlLoop l maps).isPanics = false := by
  induction l with
  | nil => intro maps; rfl
  | cons nsI rest ih =>
    intro maps
    obtain ⟨dl, fl⟩ := maps
    obtain ⟨nsConf, name, se, hv, hname, hse, hdev, hfile⟩ :=
      wfNsEntryUpd_parts (h nsI (List.mem_cons_self _ _))
    subst hv
    rw [sedlLoop]
    simp only [asMap, Res.monadBind_eq, Res.bind_ok]
    rw [hname]
    simp only [asString, Res.bind_ok]
    rw [hse]
    simp only [asMap, Res.bind_ok]
    refine Res.bind_no_panics (sedlDevBranch_no_panics hdev) (fun dl2 => ?_)
    refine Res.bind_no_panics (sedlFileBranch_no_panics hfile) (fun fl2 => ?_)
    exact ih (fun v hv2 => h v (List.mem_cons_of_mem _ hv2)) _

theorem sedluDevices_no_panics {nsName : String} {deviceList : List (String × String)}
    {devList : List CVal}
    (h : ∀ d ∈ devList, (match d with | CVal.s _ => true | _ => false) = true) :
    (sedluDevices nsName deviceList devList).isPanics = false := by
  induction devList with
  | nil => rfl
  | cons dI rest ih =>
    cases dI with
    | s s =>
      rw [sedluDevices]
      simp only [asString, Res.monadBind_eq, Res.bind_ok]
      split
      · rfl
      · exact ih (fun d hd => h d (List.mem_cons_of_mem _ hd))
    | i a => have := h _ (List.mem_cons_self _ _); simp at this
    | b a => have := h _ (List.mem_cons_self _ _); simp at this
    | lst a => have := h _ (List.mem_cons_self _ _); simp at this
    | m a => have := h _ (List.mem_cons_self _ _); simp at this

theorem sedluFiles_no_panics {nsName : String} {fileList : List (String × String)}
    {fList : List CVal}
    (h : ∀ d ∈ fList, (match d with | CVal.s _ => true | _ => false) = true) :
    (sedluFiles nsName fileList fList).isPanics = false := by
  induction fList with
  | nil => rfl
  | cons fI rest ih =>
    cases fI with
    | s s =>
      rw [sedluFiles]
      simp only [asString, Res.monadBind_eq, Res.bind_ok]
      split
      · rfl
      · exact ih (fun d hd => h d (List.mem_cons_of_mem _ hd))
    | i a => have := h _ (List.mem_cons_self _ _); simp at this
    | b a => have := h _ (List.mem_cons_self _ _); simp at this
    | lst a => have := h _ (List.mem_cons_self _ _); simp at this
    | m a => have := h _ (List.mem_cons_self _ _); simp at this

theorem sedluDevBranch_no_panics {nsName : String} {deviceList : List (String × String)}
    {o : Option CVal}
    (h : (match o with
          | none => true
          | some (.lst l) => l.all (fun d => match d with | CVal.s _ => true | _ => false)
          | some _ => false) = true) :
    (sedluDevBranch nsName deviceList o).isPanics = false := by
  cases o with
  | none => rfl
  | some devs =>
    cases devs with
    | lst l =>
      rw [sedluDevBranch]
      simp only [asList, Res.monadBind_eq, Res.bind_ok]
      rw [List.all_eq_true] at h
      exact sedluDevices_no_panics h
    | s a => simp at h
    | i a => simp at h
    | b a => simp at h
    | m a => simp at h

theorem sedluFileBranch_no_panics {nsName : String} {fileList : List (String × String)}
    {o : Option CVal}
    (h : (match o with
          | none => true
          | some (.lst l) => l.all (fun d => match d with | CVal.s _ => true | _ => false)
          | some _ => false) = true) :
    (sedluFileBranch nsName fileList o).isPanics = false := by
  cases o with
  | none => rfl
  | some fs =>
    cases fs with
    | lst l =>
      rw [sedluFileBranch]
      simp only [asList, Res.monadBind_eq, Res.bind_ok]
      rw [List.all_eq_true] at h
      exact sedluFiles_no_panics h
    | s a => simp at h
    | i a => simp at h
    | b a => simp at h
    | m a => simp at h

theorem sedluStatusLoop_no_panics {deviceList fileList : List (String × String)}
    {l : List CVal}
    (h : ∀ v ∈ l, wfNsEntryUpd v = true) :
    (sedluStatusLoop deviceList fileList l).isPanics = false := by
  induction l with
  | nil => rfl
  | cons nsI rest ih =>
    obtain ⟨nsConf, name, se, hv, hname, hse, hdev, hfile⟩ :=
      wfNsEntryUpd_parts (h nsI (List.mem_cons_self _ _))
    subst hv
    rw [sedluStatusLoop]
    simp only [asMap, Res.monadBind_eq, Res.bind_ok]
    rw [hname]
    simp only [asString, Res.bind_ok]
    rw [hse]
    simp only [asMap, Res.bind_ok]
    refine Res.bind_no_panics (sedluDevBranch_no_panics hdev) (fun u1 => ?_)
    refine Res.bind_no_panics (sedluFileBranch_no_panics hfile) (fun u2 => ?_)
    exact ih (fun v hv2 => h v (List.mem_cons_of_mem _ hv2))

theorem validateStorageEngineDeviceListUpdate_no_panics {nsConfList statusNsConfList : List CVal}
    (hns : ∀ v ∈ nsConfList, wfNsEntryUpd v = true)
    (hst : ∀ v ∈ statusNsConfList, wfNsEntryUpd v = true) :
    (validateStorageEngineDeviceListUpdate nsConfList statusNsConfList).isPanics = false := by
  rw [validateStorageEngineDeviceListUpdate]
  simp only [Res.monadBind_eq, validateStorageEngineDeviceList]
  exact Res.bind_no_panics (sedlLoop_no_panics hns _)
    (fun maps => sedluStatusLoop_no_panics hst)

theorem nsMatchLoopOld_no_panics (singleConf : ConfMap) (l : List CVal) :
    (nsMatchLoopOld singleConf l).isPanics = false := by
  induction l with
  | nil => rfl
  | cons oldI rest ih =>
    cases oldI with
    | m oldSingleConf =>
      rw [nsMatchLoopOld]
      split
      · split
        · rfl
        · split
          · rfl
          · exact ih
      · exact ih
    | s a => rfl
    | i a => rfl
    | b a => rfl
    | lst a => rfl

theorem nsNewLoop_no_panics (oldNsConfList : List CVal) (l : List CVal) :
    (nsNewLoop oldNsConfList l).isPanics = false := by
  induction l with
  | nil => rfl
  | cons newI rest ih =>
    cases newI with
    | m singleConf =>
      rw [nsNewLoop]
      simp only [Res.monadBind_eq]
      exact Res.bind_no_panics (nsMatchLoopOld_no_panics singleConf oldNsConfList) (fun u => ih)
    | s a => rfl
    | i a => rfl
    | b a => rfl
    | lst a => rfl

theorem statusNsListRes_ok {st : Option ConfMap} (h : wfStatusConf st = true) :
    ∃ l, statusNsListRes st = .ok l ∧ ∀ v ∈ l, wfNsEntryUpd v = true := by
  cases st with
  | none => exact ⟨[], rfl, by intro v hv; simp at hv⟩
  | some stc =>
    rw [wfStatusConf] at h
    simp only [Bool.or_eq_true] at h
    by_cases hie : stc.isEmpty = true
    · refine ⟨[], ?_, by intro v hv; simp at hv⟩
      rw [statusNsListRes, if_pos hie]
      rfl
    · have hm : (match mapGet stc "namespaces" with
          | some (.lst nl) => nl.all wfNsEntryUpd
          | _ => false) = true := by
        cases h with
        | inl h1 => exact (hie h1).elim
        | inr h2 => exact h2
      cases hns : mapGet stc "namespaces" with
      | none => rw [hns] at hm; simp at hm
      | some nv =>
        rw [hns] at hm
        cases nv with
        | lst nl =>
          refine ⟨nl, ?_, ?_⟩
          · rw [statusNsListRes, if_neg hie, hns]
            rfl
          · rw [List.all_eq_true] at hm
            exact hm
        | s a => simp at hm
        | i a => simp at hm
        | b a => simp at hm
        | m a => simp at hm

theorem validateNsConfUpdate_no_panics {newConfSpec oldConfSpec : ConfMap}
    {st : Option ConfMap}
    (hN : wfConfForUpdate newConfSpec = true) (hO : wfConfForUpdate oldConfSpec = true)
    (hS : wfStatusConf st = true) :
    (validateNsConfUpdate newConfSpec oldConfSpec st).isPanics = false := by
  obtain ⟨sl, hsl, hslwf⟩ := statusNsListRes_ok hS
  obtain ⟨nl, hnl, hnlwf⟩ := wfConf_namespaces hN
  obtain ⟨ol, hol, holwf⟩ := wfConf_namespaces hO
  rw [validateNsConfUpdate, hsl]
  simp only [Res.monadBind_eq, Res.bind_ok]
  rw [hnl]
  simp only [asList, Res.bind_ok]
  rw [hol]
  simp only [asList, Res.bind_ok]
  refine Res.bind_no_panics (nsNewLoop_no_panics ol nl) (fun u => ?_)
  exact validateStorageEngineDeviceListUpdate_no_panics hnlwf hslwf

/-- C10: amended totality. `validateAerospikeConfigUpdate` is *not* total on
configs accepted by structural validation (see the counterexample: a config
with only `network.service` passes `validateAerospikeConfig` yet the update
path panics on the missing `heartbeat` section). Under the stated
well-formedness — the network section present with all three connection types
and any `tls` list well-formed, the namespace list present with well-formed
entries, in both old and new trees, and a well-formed status — every internal
one-value type assertion succeeds, so the update validator returns `ok` or
`err` but never panics. -/
theorem validateAerospikeConfigUpdate_no_panics {incomingSpec outgoingSpec : ConfMap}
    {st : Option ConfMap}
    (hN : wfConfForUpdate incomingSpec = true) (hO : wfConfForUpdate outgoingSpec = true)
    (hS : wfStatusConf st = true) :
    (validateAerospikeConfigUpdate incomingSpec outgoingSpec st).isPanics = false := by
  obtain ⟨oldNet, hON, hOsec, hOt⟩ := wfConf_network hO
  obtain ⟨newNet, hNN, hNsec, hNt⟩ := wfConf_network hN
  rw [validateAerospikeConfigUpdate]
  simp only [Res.monadBind_eq]
  refine Res.bind_no_panics
    (validateSecurityConfigUpdate_no_panics incomingSpec outgoingSpec st) (fun u1 => ?_)
  refine Res.bind_no_panics (validateTLSUpdate_no_panics hO hN) (fun u2 => ?_)
  refine Res.bind_no_panics
    (connectionTypesUpdateLoop_no_panics hON hNN hOsec hNsec) (fun u3 => ?_)
  exact validateNsConfUpdate_no_panics hN hO hS

theorem validateAerospikeConfigUpdate_no_panics_witness :
    wfConfForUpdate exUpdConf = true ∧ wfStatusConf none = true ∧
      (validateAerospikeConfigUpdate exUpdConf exUpdConf none).isPanics = false :=
  ⟨by decide, by decide,
    validateAerospikeConfigUpdate_no_panics (by decide) (by decide) (by decide)⟩

theorem nodup_map_inj {α β : Type} {f : α → β} {l : List α}
    (hnd : (l.map f).Nodup) : ∀ x ∈ l, ∀ y ∈ l, f x = f y → x = y := by
  induction l with
  | nil => intro x hx; simp at hx
  | cons hd tl ih =>
    simp only [List.map_cons, List.nodup_cons] at hnd
    intro x hx y hy hxy
    cases List.mem_cons.mp hx with
    | inl hx1 =>
      cases List.mem_cons.mp hy with
      | inl hy1 => rw [hx1, hy1]
      | inr hy2 =>
        subst hx1
        exact absurd (hxy ▸ List.mem_map_of_mem f hy2) hnd.1
    | inr hx2 =>
      cases List.mem_cons.mp hy with
      | inl hy1 =>
        subst hy1
        exact absurd (hxy ▸ List.mem_map_of_mem f hx2) hnd.1
      | inr hy2 => exact ih hnd.2 x hx2 y hy2 hxy

theorem find_self_of_nodup_map {α β : Type} [DecidableEq β] {f : α → β} {l : List α}
    (hnd : (l.map f).Nodup) {a : α} (ha : a ∈ l) :
    l.find? (fun x => f x = f a) = some a := by
  induction l with
  | nil => simp at ha
  | cons hd tl ih =>
    simp only [List.map_cons, List.nodup_cons] at hnd
    by_cases hph : f hd = f a
    · have hda : hd = a := by
        cases List.mem_cons.mp ha with
        | inl h1 => rw [h1]
        | inr h2 => exact absurd (hph ▸ List.mem_map_of_mem f h2) hnd.1
      rw [List.find?_cons_of_pos _ (by simp [hph]), hda]
    · have ha2 : a ∈ tl := by
        cases List.mem_cons.mp ha with
        | inl h1 => exact absurd (by rw [h1]) hph
        | inr h2 => exact h2
      rw [List.find?_cons_of_neg _ (by simp [hph])]
      exact ih hnd.2 ha2

theorem validateStorageSpecChange_self {s : AerospikeStorageSpec}
    (hnd : (s.volumes.map (fun v => v.name)).Nodup) :
    validateStorageSpecChange s s = .ok () := by
  rw [validateStorageSpecChange, if_pos]
  rw [List.all_eq_true]
  intro nv hnv
  have hf := find_self_of_nodup_map (f := fun v : Volume => v.name) hnd hnv
  simp only [hf]
  simp

theorem mpphCheck_self (s : AerospikeClusterSpec) : mpphCheck s s = .ok () := by
  simp [mpphCheck]

theorem validateNetworkPolicyUpdate_self (p : AerospikeNetworkPolicy) :
    validateNetworkPolicyUpdate p p = .ok () := by
  simp [validateNetworkPolicyUpdate]

theorem validateTLSUpdate_self {conf : ConfMap} {net : ConfMap}
    (hnet : mapGet conf "network" = some (.m net)) :
    validateTLSUpdate conf conf = .ok () := by
  rw [validateTLSUpdate, hnet]
  simp only [asMap, Res.monadBind_eq, Res.bind_ok]
  cases ht : mapGet net "tls" with
  | none => rfl
  | some t => simp

theorem validateNetworkPortUpdate_self (cc : ConfMap) (p : String) :
    validateNetworkPortUpdate cc cc p = .ok () := by
  rw [validateNetworkPortUpdate]
  cases h1 : mapGet cc p <;> cases h2 : mapGet cc ("tls-" ++ p) <;>
    simp [h1, h2, Res.monadBind_eq]

theorem portUpdateLoop_self (cc : ConfMap) (l : List String) :
    portUpdateLoop cc cc l = .ok () := by
  induction l with
  | nil => rfl
  | cons p rest ih =>
    rw [portUpdateLoop]
    simp only [Res.monadBind_eq, validateNetworkPortUpdate_self cc p, Res.bind_ok]
    exact ih

theorem validateNetworkConnectionUpdate_self {conf : ConfMap} {net cc : ConfMap} {t : String}
    (hnet : mapGet conf "network" = some (.m net))
    (hcc : mapGet net t = some (.m cc)) :
    validateNetworkConnectionUpdate conf conf t = .ok () := by
  rw [validateNetworkConnectionUpdate, hnet]
  simp only [asMap, Res.monadBind_eq, Res.bind_ok]
  rw [hcc]
  simp only [asMap, Res.bind_ok]
  cases htn : mapGet cc "tls-name" with
  | none =>
    simp only [Res.bind_ok]
    exact portUpdateLoop_self cc networkPortsList
  | some tn =>
    simp [portUpdateLoop_self cc networkPortsList]

theorem connectionTypesUpdateLoop_self {conf : ConfMap} {net : ConfMap}
    (hnet : mapGet conf "network" = some (.m net)) {types : List String}
    (hsec : ∀ t ∈ types, ∃ cc, mapGet net t = some (.m cc)) :
    connectionTypesUpdateLoop conf conf types = .ok () := by
  induction types with
  | nil => rfl
  | cons t rest ih =>
    obtain ⟨cc, hcc⟩ := hsec t (List.mem_cons_self _ _)
    rw [connectionTypesUpdateLoop]
    simp only [Res.monadBind_eq, validateNetworkConnectionUpdate_self hnet hcc, Res.bind_ok]
    exact ih (fun t2 ht2 => hsec t2 (List.mem_cons_of_mem _ ht2))

theorem isValueUpdated_self (m : ConfMap) (key : String) :
    isValueUpdated m m key = false := by
  simp [isValueUpdated]

theorem nsMatchLoopOld_self {l : List CVal} {singleConf : ConfMap}
    (hmem : CVal.m singleConf ∈ l)
    (hinj : ∀ x ∈ l, ∀ y ∈ l, nsNameKey x = nsNameKey y → x = y)
    {l2 : List CVal}
    (hmaps : ∀ v ∈ l2, ∃ m, v = CVal.m m)
    (hsub : ∀ v ∈ l2, v ∈ l) :
    nsMatchLoopOld singleConf l2 = .ok () := by
  induction l2 with
  | nil => rfl
  | cons oldI rest ih =>
    obtain ⟨oldSingleConf, hm⟩ := hmaps oldI (List.mem_cons_self _ _)
    subst hm
    rw [nsMatchLoopOld]
    by_cases hname : mapGet singleConf "name" = mapGet oldSingleConf "name"
    · have heq : CVal.m oldSingleConf = CVal.m singleConf :=
        hinj _ (hsub _ (List.mem_cons_self _ _)) _ hmem (by simp [nsNameKey, hname])
      have heq2 : oldSingleConf = singleConf := by injection heq
      subst heq2
      rw [if_pos hname, if_neg (by simp [isValueUpdated_self]),
        if_neg (by simp [isValueUpdated_self])]
      exact ih (fun v hv => hmaps v (List.mem_cons_of_mem _ hv))
        (fun v hv => hsub v (List.mem_cons_of_mem _ hv))
    · rw [if_neg hname]
      exact ih (fun v hv => hmaps v (List.mem_cons_of_mem _ hv))
        (fun v hv => hsub v (List.mem_cons_of_mem _ hv))

theorem nsNewLoop_self {l : List CVal}
    (hmaps : ∀ v ∈ l, ∃ m, v = CVal.m m)
    (hinj : ∀ x ∈ l, ∀ y ∈ l, nsNameKey x = nsNameKey y → x = y)
    {l2 : List CVal}
    (hmaps2 : ∀ v ∈ l2, ∃ m, v = CVal.m m)
    (hsub : ∀ v ∈ l2, v ∈ l) :
    nsNewLoop l l2 = .ok () := by
  induction l2 with
  | nil => rfl
  | cons newI rest ih =>
    obtain ⟨singleConf, hm⟩ := hmaps2 newI (List.mem_cons_self _ _)
    subst hm
    rw [nsNewLoop]
    simp only [Res.monadBind_eq,
      nsMatchLoopOld_self (hsub _ (List.mem_cons_self _ _)) hinj hmaps (fun v hv => hv),
      Res.bind_ok]
    exact ih (fun v hv => hmaps2 v (List.mem_cons_of_mem _ hv))
      (fun v hv => hsub v (List.mem_cons_of_mem _ hv))

theorem statusNsListRes_eq {st : Option ConfMap} (h : wfStatusConf st = true) :
    statusNsListRes st = .ok (statusNsList st) := by
  cases st with
  | none => rfl
  | some stc =>
    rw [wfStatusConf] at h
    simp only [Bool.or_eq_true] at h
    by_cases hie : stc.isEmpty = true
    · rw [statusNsListRes, if_pos hie, statusNsList, if_pos hie]
      rfl
    · have hm : (match mapGet stc "namespaces" with
          | some (.lst nl) => nl.all wfNsEntryUpd
          | _ => false) = true := by
        cases h with
        | inl h1 => exact (hie h1).elim
        | inr h2 => exact h2
      cases hns : mapGet stc "namespaces" with
      | none => rw [hns] at hm; simp at hm
      | some nv =>
        rw [hns] at hm
        cases nv with
        | lst nl =>
          rw [statusNsListRes, if_neg hie, hns, statusNsList, if_neg hie, hns]
          rfl
        | s a => simp at hm
        | i a => simp at hm
        | b a => simp at hm
        | m a => simp at hm

theorem validateNsConfUpdate_self {conf : ConfMap} {st : Option ConfMap} {nl : List CVal}
    (hnl : mapGet conf "namespaces" = some (.lst nl))
    (hst : wfStatusConf st = true)
    (hmaps : ∀ v ∈ nl, ∃ m, v = CVal.m m)
    (hinj : ∀ x ∈ nl, ∀ y ∈ nl, nsNameKey x = nsNameKey y → x = y)
    (hsedlu : validateStorageEngineDeviceListUpdate nl (statusNsList st) = .ok ()) :
    validateNsConfUpdate conf conf st = .ok () := by
  rw [validateNsConfUpdate, statusNsListRes_eq hst]
  simp only [Res.monadBind_eq, Res.bind_ok]
  rw [hnl]
  simp only [asList, Res.bind_ok]
  rw [nsNewLoop_self hmaps hinj hmaps (fun v hv => hv)]
  simp only [Res.bind_ok]
  exact hsedlu

theorem validateRackUpdate_self (c : AerospikeCluster) :
    validateRackUpdate c c = .ok () := by
  rw [validateRackUpdate, if_pos rfl]

/-- C5: self-update idempotence. For a cluster whose config tree and status
are well-formed, whose volume names and namespace names are duplicate-free,
whose device/file layout passed the status reuse check, and whose batch sizes
were previously accepted, re-running every immutability check of the update
path with the descriptor as both old and new object — storage change,
MultiPodPerHost, network-policy update, TLS update, network-connection update,
namespace-config update, rack update — and the batch-safety checks produces no
rejection: every check returns ok, the self-diff being empty. -/
theorem selfUpdate_no_immutability_rejection (c : AerospikeCluster)
    (hvol : (c.spec.storage.volumes.map (fun v => v.name)).Nodup)
    (hwf : wfConfForUpdate c.spec.aerospikeConfig = true)
    (hst : wfStatusConf c.status.aerospikeConfig = true)
    (hnames : ((getNsList c.spec.aerospikeConfig).map nsNameKey).Nodup)
    (hsedlu : validateStorageEngineDeviceListUpdate (getNsList c.spec.aerospikeConfig)
      (statusNsList c.status.aerospikeConfig) = .ok ())
    (hb1 : validateBatchSize c c.spec.rackConfig.rollingUpdateBatchSize true = .ok ())
    (hb2 : validateBatchSize c c.spec.rackConfig.scaleDownBatchSize false = .ok ()) :
    validateStorageSpecChange c.spec.storage c.spec.storage = .ok () ∧
    mpphCheck c.spec c.spec = .ok () ∧
    validateNetworkPolicyUpdate c.spec.networkPolicy c.spec.networkPolicy = .ok () ∧
    validateTLSUpdate c.spec.aerospikeConfig c.spec.aerospikeConfig = .ok () ∧
    connectionTypesUpdateLoop c.spec.aerospikeConfig c.spec.aerospikeConfig
      networkConnectionTypes = .ok () ∧
    validateNsConfUpdate c.spec.aerospikeConfig c.spec.aerospikeConfig
      c.status.aerospikeConfig = .ok () ∧
    validateRackUpdate c c = .ok () ∧
    validateBatchSize c c.spec.rackConfig.rollingUpdateBatchSize true = .ok () ∧
    validateBatchSize c c.spec.rackConfig.scaleDownBatchSize false = .ok () := by
  obtain ⟨net, hnet, hsec, hntls⟩ := wfConf_network hwf
  obtain ⟨nl, hnl, hnlwf⟩ := wfConf_namespaces hwf
  have hgl : getNsList c.spec.aerospikeConfig = nl := by rw [getNsList, hnl]
  have hmaps : ∀ v ∈ nl, ∃ m, v = CVal.m m := by
    intro v hv
    obtain ⟨m, name, se, hm, _⟩ := wfNsEntryUpd_parts (hnlwf v hv)
    exact ⟨m, hm⟩
  rw [hgl] at hnames hsedlu
  have hinj : ∀ x ∈ nl, ∀ y ∈ nl, nsNameKey x = nsNameKey y → x = y :=
    nodup_map_inj hnames
  have hsecm : ∀ t ∈ networkConnectionTypes, ∃ cc, mapGet net t = some (.m cc) := by
    intro t ht
    obtain ⟨v, hv, hwfv⟩ := hsec t ht
    obtain ⟨cc, hcc, _⟩ := wfConnSection_map hwfv
    exact ⟨cc, by rw [hv, hcc]⟩
  exact ⟨validateStorageSpecChange_self hvol, mpphCheck_self _,
    validateNetworkPolicyUpdate_self _, validateTLSUpdate_self hnet,
    connectionTypesUpdateLoop_self hnet hsecm,
    validateNsConfUpdate_self hnl hst hmaps hinj hsedlu,
    validateRackUpdate_self c, hb1, hb2⟩

theorem selfUpdate_no_immutability_rejection_witness :
    ((exClusterSelf.spec.storage.volumes.map (fun v => v.name)).Nodup ∧
     wfConfForUpdate exClusterSelf.spec.aerospikeConfig = true ∧
     wfStatusConf exClusterSelf.status.aerospikeConfig = true ∧
     ((getNsList exClusterSelf.spec.aerospikeConfig).map nsNameKey).Nodup ∧
     validateStorageEngineDeviceListUpdate (getNsList exClusterSelf.spec.aerospikeConfig)
       (statusNsList exClusterSelf.status.aerospikeConfig) = .ok () ∧
     validateBatchSize exClusterSelf exClusterSelf.spec.rackConfig.rollingUpdateBatchSize
       true = .ok () ∧
     validateBatchSize exClusterSelf exClusterSelf.spec.rackConfig.scaleDownBatchSize
       false = .ok ()) ∧
    (validateStorageSpecChange exClusterSelf.spec.storage exClusterSelf.spec.storage = .ok () ∧
     mpphCheck exClusterSelf.spec exClusterSelf.spec = .ok () ∧
     validateNetworkPolicyUpdate exClusterSelf.spec.networkPolicy
       exClusterSelf.spec.networkPolicy = .ok () ∧
     validateTLSUpdate exClusterSelf.spec.aerospikeConfig
       exClusterSelf.spec.aerospikeConfig = .ok () ∧
     connectionTypesUpdateLoop exClusterSelf.spec.aerospikeConfig
       exClusterSelf.spec.aerospikeConfig networkConnectionTypes = .ok () ∧
     validateNsConfUpdate exClusterSelf.spec.aerospikeConfig
       exClusterSelf.spec.aerospikeConfig exClusterSelf.status.aerospikeConfig = .ok () ∧
     validateRackUpdate exClusterSelf exClusterSelf = .ok () ∧
     validateBatchSize exClusterSelf exClusterSelf.spec.rackConfig.rollingUpdateBatchSize
       true = .ok () ∧
     validateBatchSize exClusterSelf exClusterSelf.spec.rackConfig.scaleDownBatchSize
       false = .ok ()) :=
  ⟨⟨by decide, by decide, by decide, by decide, by decide, by decide, by decide⟩,
    selfUpdate_no_immutability_rejection exClusterSelf (by decide) (by decide) (by decide)
      (by decide) (by decide) (by decide) (by decide)⟩

end AeroSpec
